import Mathlib

/-!
# Simple-Weather-App: a shallow embedding of `testing 2/wheather.cpp`

The program has one translation unit.  Its parts are embedded as follows.

* `WeatherData` (lines 16-21): a numeric field is `none` while it has never been
  assigned (the declaration `WeatherData weather;` leaves it indeterminate) and
  `some v` once a value has been stored.  A `double` is represented by the
  rational it denotes; the program only copies such values and converts
  between them and integers, and the conversions are taken as exact.
* `fetchWeatherData` (lines 24-43): the network is a function from the request
  path to the result of `cli.Get`, the JSON text parser is a function from the
  body to a document (`none`: the parser throws).  A C++ exception is
  `Except.error`; none is caught anywhere in the program, so an exception
  that leaves `fetchWeatherData` ends the process.
* The containers of `main`: the map is a list of entries with distinct keys,
  the deque a list; `std::remove` is embedded with the value argument it
  receives on line 172, a reference into the sequence it rearranges, and the
  loop of line 165 with the end it has cached, so that after the erase it
  runs on over the slots up to the old end.
* `main` (lines 55-205): an interleaving transition system over the variables
  of lines 58-64.  One step is one access to an atomic flag, one execution of
  line 70 (a fetch and the store write it feeds), one `sleep_for`, or one user
  action of the render loop.  The map and the deque are not synchronised in
  the program; here each step on them is atomic.  The window set-up of lines
  81-95 is taken to succeed.
-/

namespace Weather

/-! ## Data model -/

/-- The record of lines 16-21. -/
structure WeatherData where
  city : String
  temperature : Option Rat
  humidity : Option Int
  wind_speed : Option Rat
  deriving DecidableEq, Repr

/-- The value of a JSON document, as the JSON library stores it. -/
inductive Json where
  | null
  | bool (b : Bool)
  /-- an integer number, signed or unsigned -/
  | int (n : Int)
  /-- a floating-point number -/
  | float (x : Rat)
  | str (s : String)
  | arr (xs : List Json)
  | obj (kvs : List (String × Json))

/-- The exceptions the body of `fetchWeatherData` can let escape. -/
inductive Fault where
  | parse_error
  | type_error (id : Nat)
  | undefined_cast
  deriving DecidableEq, Repr

/-- An HTTP response: the two members the program reads. -/
structure Response where
  status : Int
  body : String
  deriving DecidableEq, Repr

/-- The result of `cli.Get`: `none` is the null result of a transport error. -/
abbrev HttpResult := Option Response

/-- The network at the moment of one request: request path to result. -/
abbrev Net := String → HttpResult

/-- The text parser `nlohmann::json::parse`; `none` stands for its `parse_error`. -/
abbrev Parser := String → Option Json

/-! ## The JSON accessors used on lines 34-36 -/

/-- First value stored under `key` in an object's member list. -/
def Json.member (key : String) : List (String × Json) → Option Json
  | [] => none
  | (k, v) :: rest => if k = key then some v else Json.member key rest

/-- The call `j[key]` on a non-const document: an object yields the member (a
fresh null member when absent), null turns into an object with a null member,
every other kind throws `type_error` 305.  The insertion is not recorded: each
access on lines 34-36 that inserts ends in the conversion of that null, which
throws before the document is read again. -/
def Json.index (j : Json) (key : String) : Except Fault Json :=
  match j with
  | Json.null => Except.ok Json.null
  | Json.obj kvs =>
    match Json.member key kvs with
    | some v => Except.ok v
    | none => Except.ok Json.null
  | _ => Except.error (Fault.type_error 305)

/-- Conversion of a document to `double`: numbers only, otherwise `type_error` 302. -/
def Json.toDouble (j : Json) : Except Fault Rat :=
  match j with
  | Json.int n => Except.ok (n : Rat)
  | Json.float x => Except.ok x
  | _ => Except.error (Fault.type_error 302)

/-- The `static_cast<int>` of a 64-bit integer: reduction to 32 bits, two's complement. -/
def toInt32 (n : Int) : Int :=
  (n + 2147483648) % 4294967296 - 2147483648

/-- The integer part of a rational, rounded toward zero. -/
def truncRat (x : Rat) : Int :=
  if 0 ≤ x then Int.floor x else Int.ceil x

/-- Conversion of a document to `int`: integers are narrowed, a boolean gives 0
or 1, a float is truncated when the result fits (the cast is undefined
otherwise), every other kind throws `type_error` 302. -/
def Json.toInt (j : Json) : Except Fault Int :=
  match j with
  | Json.int n => Except.ok (toInt32 n)
  | Json.bool b => Except.ok (if b then 1 else 0)
  | Json.float x =>
    if -2147483648 ≤ truncRat x ∧ truncRat x ≤ 2147483647 then Except.ok (truncRat x)
    else Except.error Fault.undefined_cast
  | _ => Except.error (Fault.type_error 302)

/-! ## `fetchWeatherData` (lines 24-43) -/

/-- The request path built on line 29. -/
def requestUrl (city apiKey : String) : String :=
  "/data/2.5/weather?q=" ++ city ++ "&appid=" ++ apiKey ++ "&units=metric"

/-- The record after lines 25-26: the name is set, nothing else is. -/
def nameOnly (city : String) : WeatherData :=
  { city := city, temperature := none, humidity := none, wind_speed := none }

/-- Lines 33-36: parse the body and copy the three fields into `weather`. -/
def parseInto (parse : Parser) (weather : WeatherData) (body : String) :
    Except Fault WeatherData :=
  match parse body with
  | none => Except.error Fault.parse_error
  | some json_data =>
    (json_data.index "main").bind fun m1 =>
    (m1.index "temp").bind fun t =>
    t.toDouble.bind fun temperature =>
    (json_data.index "main").bind fun m2 =>
    (m2.index "humidity").bind fun h =>
    h.toInt.bind fun humidity =>
    (json_data.index "wind").bind fun w =>
    (w.index "speed").bind fun s =>
    s.toDouble.bind fun wind_speed =>
    Except.ok { weather with
      temperature := some temperature
      humidity := some humidity
      wind_speed := some wind_speed }

/-- The function of lines 24-43.  The `else` branch only writes to `std::cerr`. -/
def fetchWeatherData (net : Net) (parse : Parser) (city apiKey : String) :
    Except Fault WeatherData :=
  let weather := nameOnly city
  let url := requestUrl city apiKey
  match net url with
  | some res =>
    if res.status = 200 then parseInto parse weather res.body
    else Except.ok weather
  | none => Except.ok weather

/-! ## The containers of `main` -/

/-- The map `weatherDataMap`: its entries as a list, at most one per key.  The
order of the list has no counterpart in the program. -/
abbrev Store := List (String × WeatherData)

/-- The lookup `find(key)` of the map. -/
def Store.find (store : Store) (key : String) : Option WeatherData :=
  match store with
  | [] => none
  | (k, v) :: rest => if k = key then some v else Store.find rest key

/-- The statement `weatherDataMap[key] = value`: overwrite the entry of `key`,
or create it. -/
def Store.assign (store : Store) (key : String) (value : WeatherData) : Store :=
  match store with
  | [] => [(key, value)]
  | (k, v) :: rest =>
    if k = key then (k, value) :: rest else (k, v) :: Store.assign rest key value

/-- The value-initialised record that `weatherDataMap[key]` creates for an absent key. -/
def defaultRecord : WeatherData :=
  { city := "", temperature := some 0, humidity := some 0, wind_speed := some 0 }

/-- The read `weatherDataMap[key]` of the display panels (lines 147 and 166):
an absent key is inserted with the value-initialised record. -/
def Store.touch (store : Store) (key : String) : Store :=
  match Store.find store key with
  | some _ => store
  | none => store ++ [(key, defaultRecord)]

/-- The keys of the map. -/
def Store.keys (store : Store) : List String :=
  store.map Prod.fst

/-- Lines 129-132: drop the back entry when five are held, then push to the front. -/
def addFavorite (favoriteCities : List String) (city : String) : List String :=
  let afterPop := if favoriteCities.length ≥ 5 then favoriteCities.dropLast else favoriteCities
  city :: afterPop

/-- The loop of `std::remove` after its `find`: `i` scans, `first` is the write
position, and the value compared against is read through the reference, that
is from position `p` of the sequence as it is at that moment.  A moved-from
string is left empty. -/
def removeLoop (p : Nat) : Nat → List String → Nat → Nat → List String × Nat
  | 0, arr, first, _ => (arr, first)
  | fuel + 1, arr, first, i =>
    if i < arr.length then
      if arr.getD i "" ≠ arr.getD p "" then
        removeLoop p fuel ((arr.set first (arr.getD i "")).set i "") (first + 1) (i + 1)
      else
        removeLoop p fuel arr first (i + 1)
    else (arr, first)

/-- The call `std::remove(begin, end, value)` where `value` refers to the element
at position `p` of the sequence itself: the sequence afterwards and the
returned position. -/
def stdRemove (arr : List String) (p : Nat) : List String × Nat :=
  let first := arr.findIdx (fun x => x = arr.getD p "")
  if first < arr.length then removeLoop p arr.length arr first (first + 1)
  else (arr, first)

/-- Line 172 for the button of the entry at position `p`:
`erase(remove(begin, end, favorite), end)` with `favorite` bound to that entry. -/
def removeFavorite (favoriteCities : List String) (p : Nat) : List String :=
  let r := stdRemove favoriteCities p
  r.1.take r.2

/-! ## The state of `main` and its two threads -/

/-- The credential of line 56. -/
def apiKey : String := "b07ff606d46c7139a6e5a10cbbf478f6"

/-- The tracked cities of line 57. -/
def cities : List String := ["Jerusalem", "London", "New York"]

/-- Control points of the thread body, lines 68-77. -/
inductive Pc where
  /-- about to evaluate `while (keepRunning)` on line 68 -/
  | loopHead
  /-- inside the loop of lines 69-71, about to execute line 70 for `cities[k]` -/
  | fetch (k : Nat)
  /-- about to execute `dataFetched = true` on line 72 -/
  | setFetched
  /-- about to test `i < 300` and `!keepRunning` on lines 73-74 -/
  | sleepCheck (i : Nat)
  /-- about to call `sleep_for` on line 75 -/
  | sleeping (i : Nat)
  /-- the thread function has returned -/
  | stopped
  deriving DecidableEq, Repr

/-- Phases of the main thread after the window is set up. -/
inductive MainPc where
  /-- inside the render loop of lines 98-190 -/
  | frames
  /-- line 193 done, waiting in `weatherThread.join()` -/
  | joining
  /-- past the join: resources released, `main` returns -/
  | exited
  deriving DecidableEq, Repr

/-- The variables of `main` (lines 58-64), the control points of the two threads,
the fact that an uncaught exception has ended the process, and history
variables that record what has happened and are never read by the program. -/
structure State where
  weatherDataMap : Store
  favoriteCities : List String
  dataFetched : Bool
  keepRunning : Bool
  citySearch : String
  searchedCity : WeatherData
  cityFound : Bool
  threadPc : Pc
  mainPc : MainPc
  terminated : Bool
  /-- history: request paths handed to `cli.Get`, oldest first -/
  requests : List String
  /-- history: executions of line 70 for the first tracked city -/
  passesBegun : Nat
  /-- history: calls of `sleep_for` -/
  sleepsBegun : Nat
  /-- history: calls of line 70 that returned and stored their result -/
  fetchesDone : Nat
  /-- history: steps taken by the background thread -/
  threadSteps : Nat
  deriving DecidableEq, Repr

/-- The state when the thread has been created and the render loop is entered. -/
def init : State :=
  { weatherDataMap := []
    favoriteCities := []
    dataFetched := false
    keepRunning := true
    citySearch := ""
    searchedCity := nameOnly ""
    cityFound := false
    threadPc := Pc.loopHead
    mainPc := MainPc.frames
    terminated := false
    requests := []
    passesBegun := 0
    sleepsBegun := 0
    fetchesDone := 0
    threadSteps := 0 }

/-! ## The background thread (lines 67-78) -/

/-- Line 70 for one city: the call is evaluated, then its result is stored. -/
def fetchAndStore (net : Net) (parse : Parser) (store : Store) (city : String) :
    Except Fault Store :=
  (fetchWeatherData net parse city apiKey).map fun w => store.assign city w

/-- The loop of lines 69-71 over the remaining cities; fetch number `k` meets the
network `nets k`. -/
def passFrom (parse : Parser) (nets : Nat → Net) :
    List String → Nat → Store → Except Fault Store
  | [], _, store => Except.ok store
  | city :: rest, k, store =>
    (fetchAndStore (nets k) parse store city).bind (passFrom parse nets rest (k + 1))

/-- One full pass of lines 69-71 over the tracked cities. -/
def backgroundPass (parse : Parser) (nets : Nat → Net) (store : Store) : Except Fault Store :=
  passFrom parse nets cities 0 store

/-- One step of the background thread; `none` when it has returned. -/
def threadStep (parse : Parser) (net : Net) (s : State) : Option State :=
  match s.threadPc with
  | Pc.loopHead =>
    if s.keepRunning then
      some { s with
        threadPc := if 0 < cities.length then Pc.fetch 0 else Pc.setFetched
        threadSteps := s.threadSteps + 1 }
    else
      some { s with threadPc := Pc.stopped, threadSteps := s.threadSteps + 1 }
  | Pc.fetch k =>
    let city := cities.getD k ""
    match fetchAndStore net parse s.weatherDataMap city with
    | Except.ok store =>
      some { s with
        weatherDataMap := store
        threadPc := if k + 1 < cities.length then Pc.fetch (k + 1) else Pc.setFetched
        requests := s.requests ++ [requestUrl city apiKey]
        passesBegun := if k = 0 then s.passesBegun + 1 else s.passesBegun
        fetchesDone := s.fetchesDone + 1
        threadSteps := s.threadSteps + 1 }
    | Except.error _ =>
      some { s with
        terminated := true
        requests := s.requests ++ [requestUrl city apiKey]
        passesBegun := if k = 0 then s.passesBegun + 1 else s.passesBegun
        threadSteps := s.threadSteps + 1 }
  | Pc.setFetched =>
    some { s with
      dataFetched := true
      threadPc := Pc.sleepCheck 0
      threadSteps := s.threadSteps + 1 }
  | Pc.sleepCheck i =>
    if i < 300 then
      if !s.keepRunning then
        some { s with threadPc := Pc.loopHead, threadSteps := s.threadSteps + 1 }
      else
        some { s with threadPc := Pc.sleeping i, threadSteps := s.threadSteps + 1 }
    else
      some { s with threadPc := Pc.loopHead, threadSteps := s.threadSteps + 1 }
  | Pc.sleeping i =>
    some { s with
      threadPc := Pc.sleepCheck (i + 1)
      sleepsBegun := s.sleepsBegun + 1
      threadSteps := s.threadSteps + 1 }
  | Pc.stopped => none

/-! ## The render loop (lines 98-190) and shutdown (lines 193-196) -/

/-- Lines 110-116: the Search button is pressed. -/
def searchButton (parse : Parser) (net : Net) (s : State) : State :=
  let searchCity := s.citySearch
  if searchCity ≠ "" then
    match fetchWeatherData net parse searchCity apiKey with
    | Except.ok w =>
      { s with
        searchedCity := w
        cityFound := true
        requests := s.requests ++ [requestUrl searchCity apiKey] }
    | Except.error _ =>
      { s with
        terminated := true
        requests := s.requests ++ [requestUrl searchCity apiKey] }
  else s

/-- Lines 128-134: the Add to Favorites button is pressed. -/
def addButton (s : State) : State :=
  { s with
    favoriteCities := addFavorite s.favoriteCities s.searchedCity.city
    weatherDataMap := s.weatherDataMap.assign s.searchedCity.city s.searchedCity }

/-- The slots that the loop of line 165 still visits after the erase of line
172.  The loop has cached the end of the deque as it was before the erase and
its iterator stands on slot `p`, so it goes on through the slots `p + 1` up to
the old end.  A slot is read as the memory holds it after `std::remove`: its
new entry when it is still part of the deque, and for an erased slot the empty
string when its entry had been moved away, or else the name it had. -/
def slotsAfterErase (favoriteCities : List String) (p : Nat) : List String :=
  (stdRemove favoriteCities p).1.drop (p + 1)

/-- The loop of lines 165-175 in a frame in which the Remove button of the entry
at position `p` is pressed: line 166 reads the map for the entries up to `p`,
line 172 rearranges and shortens the deque, and line 166 then reads the map
for every slot the loop still visits. -/
def removeButton (s : State) (p : Nat) : State :=
  let readBefore := (s.favoriteCities.take (p + 1)).foldl Store.touch s.weatherDataMap
  { s with
    favoriteCities := removeFavorite s.favoriteCities p
    weatherDataMap := (slotsAfterErase s.favoriteCities p).foldl Store.touch readBefore }

/-- The map reads of one frame: line 147 for each tracked city when the ready
flag is set, line 166 for each favorite. -/
def renderPanels (s : State) : State :=
  let afterTracked :=
    if s.dataFetched then cities.foldl Store.touch s.weatherDataMap else s.weatherDataMap
  { s with weatherDataMap := s.favoriteCities.foldl Store.touch afterTracked }

/-- What can happen next. -/
inductive Action where
  /-- the background thread takes its next step; a fetch meets the network `net` -/
  | background (net : Net)
  /-- the user edits the search field (a 64-byte buffer) -/
  | typeText (t : String)
  /-- the user presses Search; the fetch meets the network `net` -/
  | pressSearch (net : Net)
  /-- the user presses Add to Favorites -/
  | pressAdd
  /-- the user presses the Remove button of the favorite at position `p` -/
  | pressRemove (p : Nat)
  /-- a frame draws the tracked-cities and favorites panels -/
  | render
  /-- the window is closed: the render loop ends and line 193 clears the run flag -/
  | close
  /-- `weatherThread.join()` returns -/
  | join

/-- One step of the application; `none` when the action cannot happen in `s`. -/
def step (parse : Parser) (s : State) (a : Action) : Option State :=
  if s.terminated then none
  else
    match a with
    | Action.background net => threadStep parse net s
    | Action.typeText t =>
      if s.mainPc = MainPc.frames ∧ t.utf8ByteSize < 64 then some { s with citySearch := t }
      else none
    | Action.pressSearch net =>
      if s.mainPc = MainPc.frames then some (searchButton parse net s) else none
    | Action.pressAdd =>
      if s.mainPc = MainPc.frames ∧ s.cityFound then some (addButton s) else none
    | Action.pressRemove p =>
      if s.mainPc = MainPc.frames ∧ p < s.favoriteCities.length then some (removeButton s p)
      else none
    | Action.render =>
      if s.mainPc = MainPc.frames then some (renderPanels s) else none
    | Action.close =>
      if s.mainPc = MainPc.frames then
        some { s with keepRunning := false, mainPc := MainPc.joining }
      else none
    | Action.join =>
      if s.mainPc = MainPc.joining ∧ s.threadPc = Pc.stopped then
        some { s with mainPc := MainPc.exited }
      else none

/-- The state after a sequence of actions, when each can happen in turn. -/
def run (parse : Parser) : State → List Action → Option State
  | s, [] => some s
  | s, a :: rest => (step parse s a).bind fun s1 => run parse s1 rest

/-- The states the application can be in. -/
def Reachable (parse : Parser) (s : State) : Prop :=
  ∃ actions, run parse init actions = some s

/-! ## Sample environment for concrete runs -/

/-- A body of the shape the weather service sends. -/
def weatherBody : String :=
  "\x7b\"main\":\x7b\"temp\":21.5,\"humidity\":40\x7d,\"wind\":\x7b\"speed\":3\x7d\x7d"

/-- A JSON body without the member `temp` of `main`. -/
def noTempBody : String :=
  "\x7b\"main\":\x7b\"humidity\":40\x7d,\"wind\":\x7b\"speed\":3\x7d\x7d"

/-- The document that `weatherBody` denotes. -/
def sampleDoc : Json :=
  Json.obj
    [("main", Json.obj [("temp", Json.float (43 / 2)), ("humidity", Json.int 40)]),
     ("wind", Json.obj [("speed", Json.int 3)])]

/-- The document that `noTempBody` denotes. -/
def noTempDoc : Json :=
  Json.obj
    [("main", Json.obj [("humidity", Json.int 40)]),
     ("wind", Json.obj [("speed", Json.int 3)])]

/-- The parser on the sample bodies.  Every other body used with it in this
file is text that is not JSON. -/
def sampleParse : Parser := fun body =>
  if body = weatherBody then some sampleDoc
  else if body = noTempBody then some noTempDoc
  else none

/-- A network on which every request succeeds with the sample weather body. -/
def netOk : Net := fun _ => some { status := 200, body := weatherBody }

/-- A network on which every request fails in transport. -/
def netDown : Net := fun _ => none

/-- The steps of the scenario "search `c` with success, then add it to the favorites". -/
def searchAndAdd (c : String) : List Action :=
  [Action.typeText c, Action.pressSearch netOk, Action.pressAdd]

/-! ## The outcomes of a fetch, in the words of the specification -/

/-- The member `key` of a JSON object, when the document is an object that has it. -/
def Json.field (j : Json) (key : String) : Option Json :=
  match j with
  | Json.obj kvs => Json.member key kvs
  | _ => none

/-- The value of a JSON number. -/
def Json.number : Json → Option Rat
  | Json.int n => some (n : Rat)
  | Json.float x => some x
  | _ => none

/-- The value of a JSON integer. -/
def Json.integer : Json → Option Int
  | Json.int n => some n
  | _ => none

/-- The three values of a body with nested fields `main.temp` (number),
`main.humidity` (integer) and `wind.speed` (number). -/
def weatherFields (j : Json) : Option (Rat × Int × Rat) :=
  match j.field "main", j.field "wind" with
  | some m, some w =>
    match m.field "temp", m.field "humidity", w.field "speed" with
    | some t, some h, some v =>
      match t.number, h.integer, v.number with
      | some tv, some hv, some vv => some (tv, hv, vv)
      | _, _, _ => none
    | _, _, _ => none
  | _, _ => none

/-- A failed fetch: a transport error or a status other than 200. -/
def FetchFails (r : HttpResult) : Prop :=
  r = none ∨ ∃ res, r = some res ∧ res.status ≠ 200

/-- A successful fetch: status 200 and a JSON body carrying the three fields. -/
def FetchSucceeds (parse : Parser) (r : HttpResult) (t : Rat) (h : Int) (v : Rat) : Prop :=
  ∃ res j, r = some res ∧ res.status = 200 ∧ parse res.body = some j ∧
    weatherFields j = some (t, h, v)

/-- The record of a successful fetch: every field populated from the body. -/
def populated (city : String) (t : Rat) (h : Int) (v : Rat) : WeatherData :=
  { city := city, temperature := some t, humidity := some (toInt32 h), wind_speed := some v }

/-! ## Invariants and measures used in the proofs -/

/-- The facts that tie the favorites, the last search and the thread's progress
to the keys of the store. -/
structure StoreConsistent (s : State) : Prop where
  entries : ∀ kv, kv ∈ s.weatherDataMap → kv.2.city = kv.1
  favorites : ∀ n, n ∈ s.favoriteCities → n ≠ "" ∧ n ∈ Store.keys s.weatherDataMap
  searched : s.cityFound = true → s.searchedCity.city ≠ ""
  ready : s.dataFetched = true → ∀ c, c ∈ cities → c ∈ Store.keys s.weatherDataMap
  inPass : ∀ k, s.threadPc = Pc.fetch k →
    ∀ c, c ∈ cities.take k → c ∈ Store.keys s.weatherDataMap
  passDone : s.threadPc = Pc.setFetched →
    ∀ c, c ∈ cities → c ∈ Store.keys s.weatherDataMap

/-- The facts that tie the ready flag to the progress of the background thread:
while the flag is unset the thread is in its first pass (with as many fetches
done as cities passed), has just finished it, or never started it. -/
structure ReadyConsistent (s : State) : Prop where
  notYet : s.dataFetched = false →
    (s.threadPc = Pc.loopHead ∧ s.fetchesDone = 0) ∨
    (∃ k, s.threadPc = Pc.fetch k ∧ s.fetchesDone = k ∧ k < cities.length) ∨
    (s.threadPc = Pc.setFetched ∧ s.fetchesDone = cities.length) ∨
    (s.threadPc = Pc.stopped ∧ s.fetchesDone = 0)
  done : s.dataFetched = true → cities.length ≤ s.fetchesDone

/-- The number of steps the background thread still takes from a control point
once the run flag is false. -/
def remainingAt : Pc → Nat
  | Pc.stopped => 0
  | Pc.loopHead => 1
  | Pc.sleepCheck _ => 2
  | Pc.sleeping _ => 3
  | Pc.setFetched => 3
  | Pc.fetch k => 4 + (cities.length - 1 - k)

/-- The steps still to come in a state: none once the process has ended. -/
def remaining (s : State) : Nat :=
  if s.terminated then 0 else remainingAt s.threadPc

/-- One at the control point past the test of line 68, where a pass is about to begin. -/
def passPendingAt : Pc → Nat
  | Pc.fetch 0 => 1
  | _ => 0

/-- One when the thread is about to begin a pass. -/
def passPending (s : State) : Nat :=
  if s.terminated then 0 else passPendingAt s.threadPc

/-- One at the control points past the test of line 74, where a sleep is about to begin. -/
def sleepPendingAt : Pc → Nat
  | Pc.sleeping _ => 1
  | _ => 0

/-- One when the thread is about to begin a sleep. -/
def sleepPending (s : State) : Nat :=
  if s.terminated then 0 else sleepPendingAt s.threadPc

/-- What a run with the run flag false keeps: bounds `P`, `S`, `T` on the passes
begun, the sleeps begun and the thread steps taken, each counted with what is
still pending, and the lower bound `p0` on the passes begun. -/
structure ShutdownBound (P S T p0 : Nat) (s : State) : Prop where
  flag : s.keepRunning = false
  passes : s.passesBegun + passPending s ≤ P
  sleeps : s.sleepsBegun + sleepPending s ≤ S
  steps : s.threadSteps + remaining s ≤ T
  passesMono : p0 ≤ s.passesBegun

/-! ## Theorems -/

/-! ### `fetchWeatherData` -/

/-- C7: when the request has a transport error or a status other than 200,
`fetchWeatherData` returns normally, and the record it returns carries the
requested city name and has none of its three numeric fields assigned. -/
theorem fetchWeatherData_failure (net : Net) (parse : Parser) (city key : String)
    (h : net (requestUrl city key) = none ∨
      ∃ res, net (requestUrl city key) = some res ∧ res.status ≠ 200) :
    ∃ w, fetchWeatherData net parse city key = Except.ok w ∧ w.city = city ∧
      w.temperature = none ∧ w.humidity = none ∧ w.wind_speed = none := by
  refine ⟨nameOnly city, ?_, rfl, rfl, rfl, rfl⟩
  rcases h with h | ⟨res, h, hs⟩
  · simp [fetchWeatherData, h]
  · simp [fetchWeatherData, h, hs]

/-- Witness of C7: a transport error and a status 404 for the city London. -/
theorem fetchWeatherData_failure_witness :
    (∃ w, fetchWeatherData netDown sampleParse "London" apiKey = Except.ok w ∧
      w.city = "London" ∧ w.temperature = none ∧ w.humidity = none ∧ w.wind_speed = none) ∧
    fetchWeatherData (fun _ => some { status := 404, body := "city not found" }) sampleParse
      "London" apiKey = Except.ok (nameOnly "London") :=
  ⟨fetchWeatherData_failure netDown sampleParse "London" apiKey (Or.inl rfl), by rfl⟩

/-- C8, the code at the failing inputs: with status 200, a body that is not JSON
makes `fetchWeatherData` throw the parser's exception and a JSON body without
`main.temp` makes it throw `type_error` 302; no record is returned, and a
Search that meets such a response ends the process.  The same request failing
in transport returns the name-only record. -/
theorem fetchWeatherData_malformed_throws :
    fetchWeatherData (fun _ => some { status := 200, body := "<html>" }) sampleParse
        "London" apiKey = Except.error Fault.parse_error ∧
    fetchWeatherData (fun _ => some { status := 200, body := noTempBody }) sampleParse
        "London" apiKey = Except.error (Fault.type_error 302) ∧
    fetchWeatherData netDown sampleParse "London" apiKey = Except.ok (nameOnly "London") ∧
    (run sampleParse init
        [Action.typeText "London",
         Action.pressSearch (fun _ => some { status := 200, body := "<html>" })]).map
      (fun s => (s.terminated, s.cityFound)) = some (true, false) := by
  refine ⟨by rfl, by rfl, by rfl, by rfl⟩

theorem Json.index_of_field (j x : Json) (key : String) (h : j.field key = some x) :
    j.index key = Except.ok x := by
  cases j <;> simp [Json.field] at h
  simp [Json.index, h]

theorem Json.toDouble_of_number (j : Json) (x : Rat) (h : j.number = some x) :
    j.toDouble = Except.ok x := by
  cases j <;> simp [Json.number] at h <;> simp [Json.toDouble, h]

theorem Json.toInt_of_integer (j : Json) (n : Int) (h : j.integer = some n) :
    j.toInt = Except.ok (toInt32 n) := by
  cases j <;> simp [Json.integer] at h
  simp [Json.toInt, h]

theorem parseInto_of_weatherFields (parse : Parser) (weather : WeatherData) (body : String)
    (j : Json) (t : Rat) (h : Int) (v : Rat) (hp : parse body = some j)
    (hw : weatherFields j = some (t, h, v)) :
    parseInto parse weather body = Except.ok { weather with
      temperature := some t, humidity := some (toInt32 h), wind_speed := some v } := by
  unfold weatherFields at hw
  split at hw
  · rename_i m w hm hwd
    split at hw
    · rename_i jt jh jv ht hh hv
      split at hw
      · rename_i tv hv1 vv e1 e2 e3
        simp only [Option.some.injEq, Prod.mk.injEq] at hw
        obtain ⟨rfl, rfl, rfl⟩ := hw
        simp [parseInto, hp, Json.index_of_field _ _ _ hm, Json.index_of_field _ _ _ hwd,
          Json.index_of_field _ _ _ ht, Json.index_of_field _ _ _ hh,
          Json.index_of_field _ _ _ hv, Json.toDouble_of_number _ _ e1,
          Json.toInt_of_integer _ _ e2, Json.toDouble_of_number _ _ e3, Except.bind]
      · cases hw
    · cases hw
  · cases hw

/-- A fetch that fails or succeeds in the sense of the specification returns
normally, with the name-only record or the populated one. -/
theorem fetchWeatherData_outcome (net : Net) (parse : Parser) (city : String)
    (h : FetchFails (net (requestUrl city apiKey)) ∨
      ∃ t hu v, FetchSucceeds parse (net (requestUrl city apiKey)) t hu v) :
    ∃ w, fetchWeatherData net parse city apiKey = Except.ok w ∧
      ((FetchFails (net (requestUrl city apiKey)) ∧ w = nameOnly city) ∨
       ∃ t hu v, FetchSucceeds parse (net (requestUrl city apiKey)) t hu v ∧
         w = populated city t hu v) := by
  rcases h with hf | ⟨t, hu, v, hs⟩
  · refine ⟨nameOnly city, ?_, Or.inl ⟨hf, rfl⟩⟩
    rcases hf with hf | ⟨res, hf, hne⟩
    · simp [fetchWeatherData, hf]
    · simp [fetchWeatherData, hf, hne]
  · refine ⟨populated city t hu v, ?_, Or.inr ⟨t, hu, v, hs, rfl⟩⟩
    obtain ⟨res, j, hr, hst, hp, hw⟩ := hs
    simp [fetchWeatherData, hr, hst, parseInto_of_weatherFields parse _ _ j t hu v hp hw,
      populated, nameOnly]

/-! ### Frame lemmas for single steps -/

/-! ### The store -/

theorem Store.find_mem (store : Store) (key : String) (r : WeatherData)
    (h : Store.find store key = some r) : (key, r) ∈ store := by
  induction store with
  | nil => simp [Store.find] at h
  | cons kv rest ih =>
    obtain ⟨k, v⟩ := kv
    unfold Store.find at h
    by_cases hk : k = key
    · simp [hk] at h
      simp [hk, h]
    · simp [hk] at h
      exact List.mem_cons_of_mem _ (ih h)

theorem Store.find_isSome_of_key (store : Store) (key : String)
    (h : key ∈ Store.keys store) : ∃ r, Store.find store key = some r := by
  induction store with
  | nil => simp [Store.keys] at h
  | cons kv rest ih =>
    obtain ⟨k, v⟩ := kv
    unfold Store.find
    by_cases hk : k = key
    · exact ⟨v, by simp [hk]⟩
    · simp only [Store.keys, List.map_cons, List.mem_cons] at h
      rcases h with h | h
      · exact absurd h.symm hk
      · obtain ⟨r, hr⟩ := ih h
        exact ⟨r, by simp [hk, hr]⟩

theorem Store.mem_assign (store : Store) (key : String) (value : WeatherData)
    (kv : String × WeatherData) (h : kv ∈ Store.assign store key value) :
    kv ∈ store ∨ kv = (key, value) := by
  induction store with
  | nil =>
    simp [Store.assign] at h
    exact Or.inr h
  | cons e rest ih =>
    obtain ⟨k, v⟩ := e
    unfold Store.assign at h
    by_cases hk : k = key
    · simp only [hk, if_true, List.mem_cons] at h
      rcases h with h | h
      · exact Or.inr h
      · exact Or.inl (List.mem_cons_of_mem _ h)
    · simp only [hk, if_false, List.mem_cons] at h
      rcases h with h | h
      · exact Or.inl (h ▸ List.mem_cons_self _ _)
      · rcases ih h with h1 | h1
        · exact Or.inl (List.mem_cons_of_mem _ h1)
        · exact Or.inr h1

theorem Store.keys_assign (store : Store) (key : String) (value : WeatherData) :
    Store.keys (Store.assign store key value) =
      if key ∈ Store.keys store then Store.keys store else Store.keys store ++ [key] := by
  induction store with
  | nil => simp [Store.assign, Store.keys]
  | cons e rest ih =>
    obtain ⟨k, v⟩ := e
    unfold Store.assign
    by_cases hk : k = key
    · simp [hk, Store.keys]
    · have hk2 : ¬ key = k := fun h => hk h.symm
      simp only [Store.keys] at ih
      simp only [hk, if_false, Store.keys, List.map_cons, List.mem_cons, hk2, false_or, ih]
      split <;> simp

theorem Store.key_assign_self (store : Store) (key : String) (value : WeatherData) :
    key ∈ Store.keys (Store.assign store key value) := by
  rw [Store.keys_assign]
  split
  · assumption
  · simp

theorem Store.key_assign_of_key (store : Store) (key : String) (value : WeatherData)
    (k : String) (h : k ∈ Store.keys store) :
    k ∈ Store.keys (Store.assign store key value) := by
  rw [Store.keys_assign]
  split
  · exact h
  · exact List.mem_append_left _ h

theorem Store.touch_of_key (store : Store) (key : String) (h : key ∈ Store.keys store) :
    Store.touch store key = store := by
  obtain ⟨r, hr⟩ := Store.find_isSome_of_key store key h
  simp [Store.touch, hr]

theorem Store.foldl_touch_of_keys (names : List String) (store : Store)
    (h : ∀ n, n ∈ names → n ∈ Store.keys store) :
    names.foldl Store.touch store = store := by
  induction names with
  | nil => rfl
  | cons n rest ih =>
    simp only [List.foldl_cons]
    rw [Store.touch_of_key store n (h n (List.mem_cons_self _ _))]
    exact ih (fun m hm => h m (List.mem_cons_of_mem _ hm))

/-! ### The city name of a fetched record -/

theorem except_bind_ok {α β : Type} (x : Except Fault α) (f : α → Except Fault β) (b : β)
    (h : x.bind f = Except.ok b) : ∃ a, x = Except.ok a ∧ f a = Except.ok b := by
  cases x with
  | error e => simp [Except.bind] at h
  | ok a => exact ⟨a, rfl, h⟩

theorem parseInto_city (parse : Parser) (weather w : WeatherData) (body : String)
    (h : parseInto parse weather body = Except.ok w) : w.city = weather.city := by
  unfold parseInto at h
  cases hp : parse body with
  | none => simp [hp] at h
  | some j =>
    simp only [hp] at h
    obtain ⟨_, _, h⟩ := except_bind_ok _ _ _ h
    obtain ⟨_, _, h⟩ := except_bind_ok _ _ _ h
    obtain ⟨_, _, h⟩ := except_bind_ok _ _ _ h
    obtain ⟨_, _, h⟩ := except_bind_ok _ _ _ h
    obtain ⟨_, _, h⟩ := except_bind_ok _ _ _ h
    obtain ⟨_, _, h⟩ := except_bind_ok _ _ _ h
    obtain ⟨_, _, h⟩ := except_bind_ok _ _ _ h
    obtain ⟨_, _, h⟩ := except_bind_ok _ _ _ h
    obtain ⟨_, _, h⟩ := except_bind_ok _ _ _ h
    cases h
    rfl

theorem fetchWeatherData_city (net : Net) (parse : Parser) (city key : String)
    (w : WeatherData) (h : fetchWeatherData net parse city key = Except.ok w) :
    w.city = city := by
  unfold fetchWeatherData at h
  simp only at h
  split at h
  · split at h
    · exact parseInto_city parse _ w _ h
    · cases h; rfl
  · cases h; rfl

theorem fetchAndStore_ok (net : Net) (parse : Parser) (store store1 : Store) (city : String)
    (h : fetchAndStore net parse store city = Except.ok store1) :
    ∃ w, fetchWeatherData net parse city apiKey = Except.ok w ∧ w.city = city ∧
      store1 = Store.assign store city w := by
  unfold fetchAndStore at h
  cases hf : fetchWeatherData net parse city apiKey with
  | error e => simp [hf, Except.map] at h
  | ok w =>
    simp [hf, Except.map] at h
    exact ⟨w, rfl, fetchWeatherData_city net parse city apiKey w hf, h.symm⟩

/-! ### `std::remove` with an aliased value -/

theorem removeLoop_length (p : Nat) (fuel : Nat) (arr : List String) (first i : Nat) :
    (removeLoop p fuel arr first i).1.length = arr.length := by
  induction fuel generalizing arr first i with
  | zero => rfl
  | succ n ih =>
    unfold removeLoop
    split
    · split
      · rw [ih]; simp
      · rw [ih]
    · rfl

/-- The fuel of `removeLoop` is enough as soon as it covers the distance of the
scan position to the end: more fuel gives the same result.  `stdRemove` passes
the length of the sequence. -/
theorem removeLoop_fuel (p : Nat) (fuel extra : Nat) (arr : List String) (first i : Nat)
    (h : arr.length - i ≤ fuel) :
    removeLoop p (fuel + extra) arr first i = removeLoop p fuel arr first i := by
  induction fuel generalizing arr first i with
  | zero =>
    have hi : ¬ i < arr.length := by omega
    cases extra with
    | zero => rfl
    | succ e =>
      have e0 : 0 + (e + 1) = e + 1 := by omega
      rw [e0]
      simp [removeLoop, hi]
  | succ n ih =>
    have e1 : n + 1 + extra = (n + extra) + 1 := by omega
    rw [e1]
    unfold removeLoop
    split
    · split
      · apply ih
        simp only [List.length_set]
        omega
      · apply ih
        omega
    · rfl

/-- Every element below the returned position of `removeLoop` satisfies a
property that holds below the write position and from the scan position on. -/
theorem removeLoop_prefix (P : String → Prop) (p : Nat) (fuel : Nat) (arr : List String)
    (first i : Nat) (hlt : first < i)
    (hlow : ∀ j, j < first → P (arr.getD j ""))
    (hhigh : ∀ j, i ≤ j → j < arr.length → P (arr.getD j "")) :
    ∀ j, j < (removeLoop p fuel arr first i).2 →
      P ((removeLoop p fuel arr first i).1.getD j "") := by
  induction fuel generalizing arr first i with
  | zero => exact hlow
  | succ n ih =>
    unfold removeLoop
    split
    · rename_i hi
      split
      · apply ih
        · omega
        · intro j hj
          by_cases hjf : j = first
          · subst hjf
            have h1 : j ≠ i := by omega
            have h2 : j < arr.length := by omega
            have := hhigh i (le_refl i) hi
            simpa [List.getElem?_set, h1, h2, Ne.symm h1] using this
          · have h1 : j < first := by omega
            have h2 : i ≠ j := by omega
            have h3 : first ≠ j := by omega
            have := hlow j h1
            simpa [List.getElem?_set, h2, h3] using this
        · intro j hij hj
          have h2 : i ≠ j := by omega
          have h3 : first ≠ j := by omega
          have hj2 : j < arr.length := by simpa using hj
          have := hhigh j (by omega) hj2
          simpa [List.getElem?_set, h2, h3] using this
      · apply ih
        · omega
        · exact hlow
        · intro j hij hj
          exact hhigh j (by omega) hj
    · exact hlow

theorem removeFavorite_length_le (favs : List String) (p : Nat) :
    (removeFavorite favs p).length ≤ favs.length := by
  unfold removeFavorite stdRemove
  simp only
  split
  · rw [List.length_take, removeLoop_length]
    exact Nat.min_le_right _ _
  · simp

theorem removeFavorite_subset (favs : List String) (p : Nat) :
    ∀ x, x ∈ removeFavorite favs p → x ∈ favs := by
  intro x hx
  have key : ∀ (arr : List String) (j : Nat), j < arr.length → arr.getD j "" ∈ favs →
      ∀ h : j < arr.length, arr[j] ∈ favs := by
    intro arr j hj hm h
    rwa [List.getD_eq_getElem _ _ h] at hm
  unfold removeFavorite stdRemove at hx
  simp only at hx
  split at hx
  · rw [List.mem_take_iff_getElem] at hx
    obtain ⟨j, hj, rfl⟩ := hx
    have hj1 : j < (removeLoop p favs.length favs
        (List.findIdx (fun x => decide (x = favs.getD p "")) favs)
        (List.findIdx (fun x => decide (x = favs.getD p "")) favs + 1)).2 := by omega
    have hj2 : j < (removeLoop p favs.length favs
        (List.findIdx (fun x => decide (x = favs.getD p "")) favs)
        (List.findIdx (fun x => decide (x = favs.getD p "")) favs + 1)).1.length := by omega
    have := removeLoop_prefix (fun y => y ∈ favs) p favs.length favs _ _ (Nat.lt_succ_self _)
      (fun j hj => by
        have : j < favs.length := by omega
        rw [List.getD_eq_getElem _ _ this]
        exact List.getElem_mem _)
      (fun j _ hj => by
        rw [List.getD_eq_getElem _ _ hj]
        exact List.getElem_mem _) j hj1
    exact key _ j hj2 this hj2
  · exact List.mem_of_mem_take hx

/-- A property of the empty string and of every element of the sequence holds
for every element of the sequence that `removeLoop` leaves. -/
theorem removeLoop_all (P : String → Prop) (hP : P "") (p : Nat) (fuel : Nat)
    (arr : List String) (first i : Nat) (h : ∀ x, x ∈ arr → P x) :
    ∀ x, x ∈ (removeLoop p fuel arr first i).1 → P x := by
  induction fuel generalizing arr first i with
  | zero => exact h
  | succ n ih =>
    unfold removeLoop
    split
    · rename_i hi
      split
      · apply ih
        intro x hx
        rcases List.mem_or_eq_of_mem_set hx with hx | hx
        · rcases List.mem_or_eq_of_mem_set hx with hx | hx
          · exact h x hx
          · subst hx
            apply h
            rw [List.getD_eq_getElem _ _ hi]
            exact List.getElem_mem _
        · subst hx; exact hP
      · exact ih arr first (i + 1) h
    · exact h

theorem slotsAfterErase_mem (favs : List String) (p : Nat) :
    ∀ x, x ∈ slotsAfterErase favs p → x ∈ favs ∨ x = "" := by
  intro x hx
  have hx1 := List.mem_of_mem_drop hx
  unfold stdRemove at hx1
  simp only at hx1
  split at hx1
  · exact removeLoop_all (fun y => y ∈ favs ∨ y = "") (Or.inr rfl) p _ favs _ _
      (fun y hy => Or.inl hy) x hx1
  · exact Or.inl hx1

theorem Store.key_touch_of_key (store : Store) (n k : String) (h : k ∈ Store.keys store) :
    k ∈ Store.keys (Store.touch store n) := by
  unfold Store.touch
  split
  · exact h
  · simp only [Store.keys, List.map_append, List.mem_append]
    exact Or.inl h

theorem Store.entries_touch (store : Store) (n : String)
    (he : ∀ kv, kv ∈ store → kv.2.city = kv.1) (hn : n ∈ Store.keys store ∨ n = "") :
    ∀ kv, kv ∈ Store.touch store n → kv.2.city = kv.1 := by
  intro kv hkv
  unfold Store.touch at hkv
  split at hkv
  · exact he kv hkv
  · rename_i hnone
    rcases hn with hn | hn
    · obtain ⟨r, hr⟩ := Store.find_isSome_of_key store n hn
      rw [hr] at hnone
      cases hnone
    · rw [List.mem_append] at hkv
      rcases hkv with hkv | hkv
      · exact he kv hkv
      · simp only [List.mem_singleton] at hkv
        subst hkv
        subst hn
        rfl

/-- Map reads under names that are keys or empty keep every record under its own
city and keep every key. -/
theorem Store.foldl_touch_consistent (names : List String) (store : Store)
    (he : ∀ kv, kv ∈ store → kv.2.city = kv.1)
    (hn : ∀ n, n ∈ names → n ∈ Store.keys store ∨ n = "") :
    (∀ kv, kv ∈ names.foldl Store.touch store → kv.2.city = kv.1) ∧
    (∀ k, k ∈ Store.keys store → k ∈ Store.keys (names.foldl Store.touch store)) := by
  induction names generalizing store with
  | nil => exact ⟨he, fun k hk => hk⟩
  | cons n rest ih =>
    simp only [List.foldl_cons]
    have h1 := Store.entries_touch store n he (hn n (List.mem_cons_self _ _))
    have h2 : ∀ m, m ∈ rest → m ∈ Store.keys (Store.touch store n) ∨ m = "" := by
      intro m hm
      rcases hn m (List.mem_cons_of_mem _ hm) with h | h
      · exact Or.inl (Store.key_touch_of_key store n m h)
      · exact Or.inr h
    obtain ⟨i1, i2⟩ := ih (Store.touch store n) h1 h2
    exact ⟨i1, fun k hk => i2 k (Store.key_touch_of_key store n k hk)⟩

/-- The nine ways in which the background thread can take a step. -/
theorem threadStep_cases (parse : Parser) (net : Net) (s s1 : State)
    (h : threadStep parse net s = some s1) :
    (s.threadPc = Pc.loopHead ∧ s.keepRunning = true ∧
      s1 = { s with threadPc := Pc.fetch 0, threadSteps := s.threadSteps + 1 }) ∨
    (s.threadPc = Pc.loopHead ∧ s.keepRunning = false ∧
      s1 = { s with threadPc := Pc.stopped, threadSteps := s.threadSteps + 1 }) ∨
    (∃ k store, s.threadPc = Pc.fetch k ∧
      fetchAndStore net parse s.weatherDataMap (cities.getD k "") = Except.ok store ∧
      s1 = { s with
        weatherDataMap := store
        threadPc := if k + 1 < cities.length then Pc.fetch (k + 1) else Pc.setFetched
        requests := s.requests ++ [requestUrl (cities.getD k "") apiKey]
        passesBegun := if k = 0 then s.passesBegun + 1 else s.passesBegun
        fetchesDone := s.fetchesDone + 1
        threadSteps := s.threadSteps + 1 }) ∨
    (∃ k e, s.threadPc = Pc.fetch k ∧
      fetchAndStore net parse s.weatherDataMap (cities.getD k "") = Except.error e ∧
      s1 = { s with
        terminated := true
        requests := s.requests ++ [requestUrl (cities.getD k "") apiKey]
        passesBegun := if k = 0 then s.passesBegun + 1 else s.passesBegun
        threadSteps := s.threadSteps + 1 }) ∨
    (s.threadPc = Pc.setFetched ∧
      s1 = { s with
        dataFetched := true, threadPc := Pc.sleepCheck 0, threadSteps := s.threadSteps + 1 }) ∨
    (∃ i, s.threadPc = Pc.sleepCheck i ∧ i < 300 ∧ s.keepRunning = false ∧
      s1 = { s with threadPc := Pc.loopHead, threadSteps := s.threadSteps + 1 }) ∨
    (∃ i, s.threadPc = Pc.sleepCheck i ∧ i < 300 ∧ s.keepRunning = true ∧
      s1 = { s with threadPc := Pc.sleeping i, threadSteps := s.threadSteps + 1 }) ∨
    (∃ i, s.threadPc = Pc.sleepCheck i ∧ ¬ i < 300 ∧
      s1 = { s with threadPc := Pc.loopHead, threadSteps := s.threadSteps + 1 }) ∨
    (∃ i, s.threadPc = Pc.sleeping i ∧
      s1 = { s with
        threadPc := Pc.sleepCheck (i + 1)
        sleepsBegun := s.sleepsBegun + 1
        threadSteps := s.threadSteps + 1 }) := by
  cases hpc : s.threadPc with
  | loopHead =>
    cases hk : s.keepRunning with
    | true =>
      left
      simp [threadStep, hpc, hk, cities] at h
      simp [← h]
    | false =>
      right; left
      simp [threadStep, hpc, hk] at h
      simp [← h]
  | fetch k =>
    cases hf : fetchAndStore net parse s.weatherDataMap (cities.getD k "") with
    | ok store =>
      right; right; left
      simp only [threadStep, hpc, hf] at h
      exact ⟨k, store, rfl, hf, (Option.some.inj h).symm⟩
    | error e =>
      right; right; right; left
      simp only [threadStep, hpc, hf] at h
      exact ⟨k, e, rfl, hf, (Option.some.inj h).symm⟩
  | setFetched =>
    right; right; right; right; left
    simp only [threadStep, hpc] at h
    exact ⟨rfl, (Option.some.inj h).symm⟩
  | sleepCheck i =>
    by_cases hi : i < 300
    · cases hk : s.keepRunning with
      | false =>
        right; right; right; right; right; left
        simp [threadStep, hpc, hk, hi] at h
        exact ⟨i, rfl, hi, rfl, h.symm⟩
      | true =>
        right; right; right; right; right; right; left
        simp [threadStep, hpc, hk, hi] at h
        exact ⟨i, rfl, hi, rfl, h.symm⟩
    · right; right; right; right; right; right; right; left
      simp [threadStep, hpc, hi] at h
      exact ⟨i, rfl, hi, h.symm⟩
  | sleeping i =>
    right; right; right; right; right; right; right; right
    simp only [threadStep, hpc] at h
    exact ⟨i, rfl, (Option.some.inj h).symm⟩
  | stopped =>
    simp [threadStep, hpc] at h

theorem threadStep_frame (parse : Parser) (net : Net) (s s1 : State)
    (h : threadStep parse net s = some s1) :
    s1.searchedCity = s.searchedCity ∧ s1.cityFound = s.cityFound ∧
    s1.favoriteCities = s.favoriteCities ∧ s1.keepRunning = s.keepRunning ∧
    s1.citySearch = s.citySearch ∧ s1.mainPc = s.mainPc := by
  rcases threadStep_cases parse net s s1 h with
    ⟨_, _, e⟩ | ⟨_, _, e⟩ | ⟨_, _, _, _, e⟩ | ⟨_, _, _, _, e⟩ | ⟨_, e⟩ | ⟨_, _, _, _, e⟩ |
    ⟨_, _, _, _, e⟩ | ⟨_, _, _, e⟩ | ⟨_, _, e⟩ <;> subst e <;> simp

theorem step_not_terminated (parse : Parser) (s s1 : State) (a : Action)
    (h : step parse s a = some s1) : s.terminated = false := by
  unfold step at h
  cases ht : s.terminated
  · rfl
  · simp [ht] at h

/-- The ways in which the application can take a step. -/
theorem step_cases (parse : Parser) (s s1 : State) (a : Action)
    (h : step parse s a = some s1) :
    s.terminated = false ∧
    ((∃ net, a = Action.background net ∧ threadStep parse net s = some s1) ∨
     (∃ t, a = Action.typeText t ∧ s.mainPc = MainPc.frames ∧ t.utf8ByteSize < 64 ∧
        s1 = { s with citySearch := t }) ∨
     (∃ net, a = Action.pressSearch net ∧ s.mainPc = MainPc.frames ∧
        s1 = searchButton parse net s) ∨
     (a = Action.pressAdd ∧ s.mainPc = MainPc.frames ∧ s.cityFound = true ∧
        s1 = addButton s) ∨
     (∃ p, a = Action.pressRemove p ∧ s.mainPc = MainPc.frames ∧
        p < s.favoriteCities.length ∧ s1 = removeButton s p) ∨
     (a = Action.render ∧ s.mainPc = MainPc.frames ∧ s1 = renderPanels s) ∨
     (a = Action.close ∧ s.mainPc = MainPc.frames ∧
        s1 = { s with keepRunning := false, mainPc := MainPc.joining }) ∨
     (a = Action.join ∧ s.mainPc = MainPc.joining ∧ s.threadPc = Pc.stopped ∧
        s1 = { s with mainPc := MainPc.exited })) := by
  have ht := step_not_terminated parse s s1 a h
  refine ⟨ht, ?_⟩
  cases a with
  | background net =>
    simp only [step, ht] at h
    exact Or.inl ⟨net, rfl, h⟩
  | typeText t =>
    simp [step, ht] at h
    exact Or.inr (Or.inl ⟨t, rfl, h.1.1, h.1.2, by rw [← h.2, ht]⟩)
  | pressSearch net =>
    simp [step, ht] at h
    exact Or.inr (Or.inr (Or.inl ⟨net, rfl, h.1, h.2.symm⟩))
  | pressAdd =>
    simp [step, ht] at h
    exact Or.inr (Or.inr (Or.inr (Or.inl ⟨rfl, h.1.1, h.1.2, h.2.symm⟩)))
  | pressRemove p =>
    simp [step, ht] at h
    exact Or.inr (Or.inr (Or.inr (Or.inr (Or.inl ⟨p, rfl, h.1.1, h.1.2, h.2.symm⟩))))
  | render =>
    simp [step, ht] at h
    exact Or.inr (Or.inr (Or.inr (Or.inr (Or.inr (Or.inl ⟨rfl, h.1, h.2.symm⟩)))))
  | close =>
    simp [step, ht] at h
    exact Or.inr (Or.inr (Or.inr (Or.inr (Or.inr (Or.inr (Or.inl
      ⟨rfl, h.1, by rw [← h.2, ht]⟩))))))
  | join =>
    simp [step, ht] at h
    exact Or.inr (Or.inr (Or.inr (Or.inr (Or.inr (Or.inr (Or.inr
      ⟨rfl, h.1.1, h.1.2, by rw [← h.2, ht]⟩))))))

/-- The three outcomes of a press of Search. -/
theorem searchButton_cases (parse : Parser) (net : Net) (s : State) :
    (s.citySearch = "" ∧ searchButton parse net s = s) ∨
    (∃ w, s.citySearch ≠ "" ∧
      fetchWeatherData net parse s.citySearch apiKey = Except.ok w ∧
      searchButton parse net s = { s with
        searchedCity := w
        cityFound := true
        requests := s.requests ++ [requestUrl s.citySearch apiKey] }) ∨
    (∃ e, s.citySearch ≠ "" ∧
      fetchWeatherData net parse s.citySearch apiKey = Except.error e ∧
      searchButton parse net s = { s with
        terminated := true
        requests := s.requests ++ [requestUrl s.citySearch apiKey] }) := by
  by_cases he : s.citySearch = ""
  · left
    exact ⟨he, by simp [searchButton, he]⟩
  · cases hf : fetchWeatherData net parse s.citySearch apiKey with
    | ok w =>
      right; left
      exact ⟨w, he, rfl, by simp [searchButton, he, hf]⟩
    | error e =>
      right; right
      exact ⟨e, he, rfl, by simp [searchButton, he, hf]⟩

/-- A property kept by every step is kept by every run. -/
theorem run_invariant (parse : Parser) (I : State → Prop)
    (hstep : ∀ s a s1, I s → step parse s a = some s1 → I s1) :
    ∀ (actions : List Action) (s s1 : State), I s → run parse s actions = some s1 → I s1 := by
  intro actions
  induction actions with
  | nil =>
    intro s s1 hI h
    simp [run] at h
    subst h
    exact hI
  | cons a rest ih =>
    intro s s1 hI h
    simp only [run] at h
    cases hs : step parse s a with
    | none => simp [hs] at h
    | some s2 =>
      simp [hs] at h
      exact ih s2 s1 (hstep s a s2 hI hs) h

/-- A property of the initial state kept by every step holds in every reachable state. -/
theorem reachable_invariant (parse : Parser) (I : State → Prop) (hinit : I init)
    (hstep : ∀ s a s1, I s → step parse s a = some s1 → I s1) :
    ∀ s, Reachable parse s → I s := by
  rintro s ⟨actions, h⟩
  exact run_invariant parse I hstep actions init s hinit h

theorem addFavorite_length_le (favs : List String) (city : String) (h : favs.length ≤ 5) :
    (addFavorite favs city).length ≤ 5 := by
  unfold addFavorite
  simp only [List.length_cons]
  split
  · rw [List.length_dropLast]; omega
  · omega

/-! ### The favorites list -/

/-- C1: in every state reachable from startup, whatever the sequence of steps
(additions, removals, searches, background work, shutdown), the favorites
list holds at most 5 entries. -/
theorem favorites_at_most_five (parse : Parser) (s : State) (h : Reachable parse s) :
    s.favoriteCities.length ≤ 5 := by
  refine reachable_invariant parse (fun s => s.favoriteCities.length ≤ 5) (by decide) ?_ s h
  intro s a s1 hI hs
  obtain ⟨_, hc⟩ := step_cases parse s s1 a hs
  rcases hc with ⟨net, _, ht⟩ | ⟨t, _, _, _, e⟩ | ⟨net, _, _, e⟩ | ⟨_, _, _, e⟩ |
    ⟨p, _, _, _, e⟩ | ⟨_, _, e⟩ | ⟨_, _, e⟩ | ⟨_, _, _, e⟩
  · have := (threadStep_frame parse net s s1 ht).2.2.1
    show s1.favoriteCities.length ≤ 5
    rw [this]; exact hI
  · subst e; exact hI
  · subst e
    rcases searchButton_cases parse net s with ⟨_, e⟩ | ⟨w, _, _, e⟩ | ⟨e1, _, _, e⟩ <;>
      rw [e] <;> exact hI
  · subst e; exact addFavorite_length_le _ _ hI
  · subst e
    exact le_trans (removeFavorite_length_le _ _) hI
  · subst e; exact hI
  · subst e; exact hI
  · subst e; exact hI

/-- Witness of C1: after six successful searches each followed by an addition,
the reachable state holds exactly five favorites. -/
theorem favorites_at_most_five_witness :
    ∃ s, run sampleParse init
        (searchAndAdd "Paris" ++ searchAndAdd "Rome" ++ searchAndAdd "Oslo" ++
          searchAndAdd "Lima" ++ searchAndAdd "Cairo" ++ searchAndAdd "Tokyo") = some s ∧
      s.favoriteCities.length = 5 ∧ s.favoriteCities.length ≤ 5 :=
  ⟨(run sampleParse init
      (searchAndAdd "Paris" ++ searchAndAdd "Rome" ++ searchAndAdd "Oslo" ++
        searchAndAdd "Lima" ++ searchAndAdd "Cairo" ++ searchAndAdd "Tokyo")).getD init,
    by rfl, by rfl,
    favorites_at_most_five sampleParse _
      ⟨searchAndAdd "Paris" ++ searchAndAdd "Rome" ++ searchAndAdd "Oslo" ++
        searchAndAdd "Lima" ++ searchAndAdd "Cairo" ++ searchAndAdd "Tokyo", by rfl⟩⟩

/-- C3, the code at the failing inputs: with the favorites Paris, Rome, Paris
(reached by three additions) the Remove button of the first entry leaves Rome,
Paris, so a Paris entry survives; with Paris, Rome, Rome it leaves the single
entry Rome, so an entry of another name is deleted.  Deleting every entry
named Paris would give Rome, respectively Rome, Rome. -/
theorem remove_button_aliased_value :
    (run sampleParse init
        (searchAndAdd "Paris" ++ searchAndAdd "Rome" ++ searchAndAdd "Paris")).map
      (fun s => s.favoriteCities) = some ["Paris", "Rome", "Paris"] ∧
    (run sampleParse init
        (searchAndAdd "Paris" ++ searchAndAdd "Rome" ++ searchAndAdd "Paris" ++
          [Action.pressRemove 0])).map
      (fun s => s.favoriteCities) = some ["Rome", "Paris"] ∧
    ["Paris", "Rome", "Paris"].filter (fun x => x ≠ "Paris") = ["Rome"] ∧
    (run sampleParse init
        (searchAndAdd "Rome" ++ searchAndAdd "Rome" ++ searchAndAdd "Paris" ++
          [Action.pressRemove 0])).map
      (fun s => s.favoriteCities) = some ["Rome"] ∧
    ["Paris", "Rome", "Rome"].filter (fun x => x ≠ "Paris") = ["Rome", "Rome"] := by
  refine ⟨by rfl, by rfl, by decide, by rfl, by decide⟩

/-! ### Favorites and the store -/

theorem storeConsistent_init : StoreConsistent init := by
  constructor <;> simp [init]

theorem storeConsistent_thread (parse : Parser) (net : Net) (s s1 : State)
    (hI : StoreConsistent s) (h : threadStep parse net s = some s1) : StoreConsistent s1 := by
  rcases threadStep_cases parse net s s1 h with
    ⟨hpc, _, e⟩ | ⟨hpc, _, e⟩ | ⟨k, store, hpc, hf, e⟩ | ⟨k, er, hpc, hf, e⟩ | ⟨hpc, e⟩ |
    ⟨i, hpc, _, _, e⟩ | ⟨i, hpc, _, _, e⟩ | ⟨i, hpc, _, e⟩ | ⟨i, hpc, e⟩
  · subst e
    exact ⟨hI.entries, hI.favorites, hI.searched, hI.ready, by simp, by simp⟩
  · subst e
    exact ⟨hI.entries, hI.favorites, hI.searched, hI.ready, by simp, by simp⟩
  · obtain ⟨w, _, hwc, hst⟩ := fetchAndStore_ok net parse _ _ _ hf
    subst hst
    have hkeys : ∀ c, c ∈ Store.keys s.weatherDataMap →
        c ∈ Store.keys (Store.assign s.weatherDataMap (cities.getD k "") w) :=
      fun c hc => Store.key_assign_of_key _ _ _ c hc
    have hnext : ∀ c, c ∈ cities.take (k + 1) →
        c ∈ Store.keys (Store.assign s.weatherDataMap (cities.getD k "") w) := by
      intro c hc
      rw [List.take_succ, List.mem_append] at hc
      rcases hc with hc | hc
      · exact hkeys c (hI.inPass k hpc c hc)
      · cases hg : cities[k]? with
        | none => simp [hg] at hc
        | some x =>
          simp [hg] at hc
          subst hc
          have : cities.getD k "" = c := by simp [hg]
          rw [this]
          exact Store.key_assign_self _ _ _
    subst e
    refine ⟨?_, ?_, hI.searched, ?_, ?_, ?_⟩
    · intro kv hkv
      rcases Store.mem_assign _ _ _ kv hkv with h1 | h1
      · exact hI.entries kv h1
      · subst h1; exact hwc
    · intro n hn
      exact ⟨(hI.favorites n hn).1, hkeys n (hI.favorites n hn).2⟩
    · intro hr c hc
      exact hkeys c (hI.ready hr c hc)
    · intro k1 hk1 c hc
      by_cases hlt : k + 1 < cities.length
      · simp only [hlt, if_true] at hk1
        cases hk1
        exact hnext c hc
      · simp [hlt] at hk1
    · intro hk1 c hc
      by_cases hlt : k + 1 < cities.length
      · simp [hlt] at hk1
      · apply hnext c
        rw [List.take_of_length_le (by omega)]
        exact hc
  · subst e
    exact ⟨hI.entries, hI.favorites, hI.searched, hI.ready, hI.inPass, hI.passDone⟩
  · subst e
    exact ⟨hI.entries, hI.favorites, hI.searched, fun _ => hI.passDone hpc, by simp, by simp⟩
  · subst e
    exact ⟨hI.entries, hI.favorites, hI.searched, hI.ready, by simp, by simp⟩
  · subst e
    exact ⟨hI.entries, hI.favorites, hI.searched, hI.ready, by simp, by simp⟩
  · subst e
    exact ⟨hI.entries, hI.favorites, hI.searched, hI.ready, by simp, by simp⟩
  · subst e
    exact ⟨hI.entries, hI.favorites, hI.searched, hI.ready, by simp, by simp⟩

theorem renderPanels_store (s : State) (hI : StoreConsistent s) :
    (renderPanels s).weatherDataMap = s.weatherDataMap := by
  have h1 : (if s.dataFetched then cities.foldl Store.touch s.weatherDataMap
      else s.weatherDataMap) = s.weatherDataMap := by
    split
    · rename_i hd
      exact Store.foldl_touch_of_keys _ _ (hI.ready hd)
    · rfl
  simp only [renderPanels, h1]
  exact Store.foldl_touch_of_keys _ _ (fun n hn => (hI.favorites n hn).2)

theorem storeConsistent_step (parse : Parser) (s : State) (a : Action) (s1 : State)
    (hI : StoreConsistent s) (hs : step parse s a = some s1) : StoreConsistent s1 := by
  obtain ⟨_, hc⟩ := step_cases parse s s1 a hs
  rcases hc with ⟨net, _, ht⟩ | ⟨t, _, _, _, e⟩ | ⟨net, _, _, e⟩ | ⟨_, _, hf, e⟩ |
    ⟨p, _, _, _, e⟩ | ⟨_, _, e⟩ | ⟨_, _, e⟩ | ⟨_, _, _, e⟩
  · exact storeConsistent_thread parse net s s1 hI ht
  · subst e
    exact ⟨hI.entries, hI.favorites, hI.searched, hI.ready, hI.inPass, hI.passDone⟩
  · subst e
    rcases searchButton_cases parse net s with ⟨_, e⟩ | ⟨w, hne, hw, e⟩ | ⟨e1, _, _, e⟩
    · rw [e]; exact hI
    · rw [e]
      refine ⟨hI.entries, hI.favorites, ?_, hI.ready, hI.inPass, hI.passDone⟩
      intro _
      show w.city ≠ ""
      rw [fetchWeatherData_city net parse _ _ w hw]
      exact hne
    · rw [e]
      exact ⟨hI.entries, hI.favorites, hI.searched, hI.ready, hI.inPass, hI.passDone⟩
  · subst e
    have hkeys : ∀ c, c ∈ Store.keys s.weatherDataMap →
        c ∈ Store.keys (Store.assign s.weatherDataMap s.searchedCity.city s.searchedCity) :=
      fun c hc => Store.key_assign_of_key _ _ _ c hc
    refine ⟨?_, ?_, hI.searched, ?_, ?_, ?_⟩
    · intro kv hkv
      rcases Store.mem_assign _ _ _ kv hkv with h1 | h1
      · exact hI.entries kv h1
      · subst h1; rfl
    · intro n hn
      simp only [addButton, addFavorite, List.mem_cons] at hn
      rcases hn with hn | hn
      · subst hn
        exact ⟨hI.searched hf, Store.key_assign_self _ _ _⟩
      · have hmem : n ∈ s.favoriteCities := by
          split at hn
          · exact List.mem_of_mem_dropLast hn
          · exact hn
        exact ⟨(hI.favorites n hmem).1, hkeys n (hI.favorites n hmem).2⟩
    · intro hr c hc
      exact hkeys c (hI.ready hr c hc)
    · intro k hk c hc
      exact hkeys c (hI.inPass k hk c hc)
    · intro hk c hc
      exact hkeys c (hI.passDone hk c hc)
  · subst e
    have hkey : ∀ n, n ∈ s.favoriteCities → n ∈ Store.keys s.weatherDataMap :=
      fun n hn => (hI.favorites n hn).2
    have hbefore : (s.favoriteCities.take (p + 1)).foldl Store.touch s.weatherDataMap =
        s.weatherDataMap :=
      Store.foldl_touch_of_keys _ _ (fun n hn => hkey n (List.mem_of_mem_take hn))
    have hstore : (removeButton s p).weatherDataMap =
        (slotsAfterErase s.favoriteCities p).foldl Store.touch s.weatherDataMap := by
      simp only [removeButton, hbefore]
    obtain ⟨hent, hkeys⟩ := Store.foldl_touch_consistent (slotsAfterErase s.favoriteCities p)
      s.weatherDataMap hI.entries (by
        intro n hn
        rcases slotsAfterErase_mem _ p n hn with h | h
        · exact Or.inl (hkey n h)
        · exact Or.inr h)
    rw [← hstore] at hent hkeys
    refine ⟨hent, ?_, hI.searched, ?_, ?_, ?_⟩
    · intro n hn
      have hmem := removeFavorite_subset _ p n hn
      exact ⟨(hI.favorites n hmem).1, hkeys n (hkey n hmem)⟩
    · intro hr c hc
      exact hkeys c (hI.ready hr c hc)
    · intro k hk c hc
      exact hkeys c (hI.inPass k hk c hc)
    · intro hk c hc
      exact hkeys c (hI.passDone hk c hc)
  · subst e
    have hr := renderPanels_store s hI
    refine ⟨?_, ?_, hI.searched, ?_, ?_, ?_⟩
    · rw [hr]; exact hI.entries
    · rw [hr]; exact hI.favorites
    · rw [hr]; exact hI.ready
    · rw [hr]; exact hI.inPass
    · rw [hr]; exact hI.passDone
  · subst e
    exact ⟨hI.entries, hI.favorites, hI.searched, hI.ready, hI.inPass, hI.passDone⟩
  · subst e
    exact ⟨hI.entries, hI.favorites, hI.searched, hI.ready, hI.inPass, hI.passDone⟩

/-- In every reachable state, every name in the favorites list is non-empty and
is a key of the store whose record carries that name as its city, and the map
reads of a frame in which no button is pressed (tracked panel and favorites
panel) leave the store as it is. -/
theorem favorites_keys_invariant (parse : Parser) (s : State) (h : Reachable parse s) :
    (∀ n, n ∈ s.favoriteCities →
      n ≠ "" ∧ ∃ r, Store.find s.weatherDataMap n = some r ∧ r.city = n) ∧
    s.favoriteCities.foldl Store.touch s.weatherDataMap = s.weatherDataMap ∧
    (renderPanels s).weatherDataMap = s.weatherDataMap := by
  have hI : StoreConsistent s :=
    reachable_invariant parse StoreConsistent storeConsistent_init
      (fun s a s1 hI hs => storeConsistent_step parse s a s1 hI hs) s h
  refine ⟨?_, ?_, renderPanels_store s hI⟩
  · intro n hn
    obtain ⟨hne, hk⟩ := hI.favorites n hn
    obtain ⟨r, hr⟩ := Store.find_isSome_of_key _ _ hk
    exact ⟨hne, r, hr, hI.entries (n, r) (Store.find_mem _ _ _ hr)⟩
  · exact Store.foldl_touch_of_keys _ _ (fun n hn => (hI.favorites n hn).2)

/-- C10, the code at the failing inputs: with the favorites Paris, Rome, Paris
and the store keys Paris, Rome, the frame in which the Remove button of the
first entry is pressed leaves the favorites Rome, Paris and runs the loop of
line 165 on to the slot emptied by `std::remove`; the read of line 166 there
creates the key of the empty name with the value-initialised record.  The
same happens after a full background pass (six keys afterwards) and with the
favorites Rome, Paris, where the entry removed is the right one.  A frame
without a press leaves the store as it is. -/
theorem remove_frame_creates_empty_record :
    (run sampleParse init
        (searchAndAdd "Paris" ++ searchAndAdd "Rome" ++ searchAndAdd "Paris")).map
      (fun s => (s.favoriteCities, Store.keys s.weatherDataMap)) =
      some (["Paris", "Rome", "Paris"], ["Paris", "Rome"]) ∧
    (run sampleParse init
        (searchAndAdd "Paris" ++ searchAndAdd "Rome" ++ searchAndAdd "Paris" ++
          [Action.render])).map
      (fun s => (s.favoriteCities, Store.keys s.weatherDataMap)) =
      some (["Paris", "Rome", "Paris"], ["Paris", "Rome"]) ∧
    (run sampleParse init
        (searchAndAdd "Paris" ++ searchAndAdd "Rome" ++ searchAndAdd "Paris" ++
          [Action.pressRemove 0])).map
      (fun s => (s.favoriteCities, Store.keys s.weatherDataMap,
        Store.find s.weatherDataMap "")) =
      some (["Rome", "Paris"], ["Paris", "Rome", ""], some defaultRecord) ∧
    (run sampleParse init
        (List.replicate 4 (Action.background netOk) ++
          searchAndAdd "Paris" ++ searchAndAdd "Rome" ++ searchAndAdd "Paris" ++
          [Action.pressRemove 0])).map
      (fun s => (s.favoriteCities, Store.keys s.weatherDataMap)) =
      some (["Rome", "Paris"], ["Jerusalem", "London", "New York", "Paris", "Rome", ""]) ∧
    (run sampleParse init
        (searchAndAdd "Paris" ++ searchAndAdd "Rome" ++ [Action.pressRemove 0])).map
      (fun s => (s.favoriteCities, Store.keys s.weatherDataMap)) =
      some (["Paris"], ["Paris", "Rome", ""]) := by
  refine ⟨by rfl, by rfl, by rfl, by rfl, by rfl⟩

/-! ### The ready flag -/

theorem readyConsistent_init : ReadyConsistent init := by
  constructor <;> simp [init]

theorem readyConsistent_of_fields (s s1 : State) (hI : ReadyConsistent s)
    (h1 : s1.dataFetched = s.dataFetched) (h2 : s1.threadPc = s.threadPc)
    (h3 : s1.fetchesDone = s.fetchesDone) : ReadyConsistent s1 := by
  constructor
  · rw [h1, h2, h3]; exact hI.notYet
  · rw [h1, h3]; exact hI.done

theorem readyConsistent_step (parse : Parser) (s : State) (a : Action) (s1 : State)
    (hI : ReadyConsistent s) (hs : step parse s a = some s1) : ReadyConsistent s1 := by
  obtain ⟨_, hc⟩ := step_cases parse s s1 a hs
  rcases hc with ⟨net, _, ht⟩ | ⟨t, _, _, _, e⟩ | ⟨net, _, _, e⟩ | ⟨_, _, hf, e⟩ |
    ⟨p, _, _, _, e⟩ | ⟨_, _, e⟩ | ⟨_, _, e⟩ | ⟨_, _, _, e⟩
  · rcases threadStep_cases parse net s s1 ht with
      ⟨hpc, _, e⟩ | ⟨hpc, _, e⟩ | ⟨k, store, hpc, hf, e⟩ | ⟨k, er, hpc, hf, e⟩ | ⟨hpc, e⟩ |
      ⟨i, hpc, _, _, e⟩ | ⟨i, hpc, _, _, e⟩ | ⟨i, hpc, _, e⟩ | ⟨i, hpc, e⟩
    · subst e
      constructor
      · intro hd
        rcases hI.notYet hd with ⟨_, h0⟩ | ⟨k, hk, _⟩ | ⟨hk, _⟩ | ⟨hk, _⟩
        · exact Or.inr (Or.inl ⟨0, rfl, h0, by decide⟩)
        · rw [hpc] at hk; cases hk
        · rw [hpc] at hk; cases hk
        · rw [hpc] at hk; cases hk
      · exact hI.done
    · subst e
      constructor
      · intro hd
        rcases hI.notYet hd with ⟨_, h0⟩ | ⟨k, hk, _⟩ | ⟨hk, _⟩ | ⟨hk, _⟩
        · exact Or.inr (Or.inr (Or.inr ⟨rfl, h0⟩))
        · rw [hpc] at hk; cases hk
        · rw [hpc] at hk; cases hk
        · rw [hpc] at hk; cases hk
      · exact hI.done
    · subst e
      constructor
      · intro hd
        rcases hI.notYet hd with ⟨hk, _⟩ | ⟨k1, hk, hn, hlt⟩ | ⟨hk, _⟩ | ⟨hk, _⟩
        · rw [hpc] at hk; cases hk
        · rw [hpc] at hk
          cases hk
          by_cases hlt2 : k + 1 < cities.length
          · exact Or.inr (Or.inl ⟨k + 1, by simp [hlt2], by simp [hn], hlt2⟩)
          · refine Or.inr (Or.inr (Or.inl ⟨by simp [hlt2], ?_⟩))
            show s.fetchesDone + 1 = cities.length
            omega
        · rw [hpc] at hk; cases hk
        · rw [hpc] at hk; cases hk
      · intro hd
        have := hI.done hd
        show cities.length ≤ s.fetchesDone + 1
        omega
    · subst e
      exact ⟨hI.notYet, hI.done⟩
    · subst e
      constructor
      · intro hd
        simp at hd
      · intro _
        rcases Bool.eq_false_or_eq_true s.dataFetched with hd | hd
        · exact hI.done hd
        · rcases hI.notYet hd with ⟨hk, _⟩ | ⟨k1, hk, _⟩ | ⟨_, hn⟩ | ⟨hk, _⟩
          · rw [hpc] at hk; cases hk
          · rw [hpc] at hk; cases hk
          · exact le_of_eq hn.symm
          · rw [hpc] at hk; cases hk
    all_goals
      subst e
      constructor
      · intro hd
        rcases hI.notYet hd with ⟨hk, _⟩ | ⟨k1, hk, _⟩ | ⟨hk, _⟩ | ⟨hk, _⟩ <;>
          (rw [hpc] at hk; cases hk)
      · exact hI.done
  · subst e; exact ⟨hI.notYet, hI.done⟩
  · subst e
    rcases searchButton_cases parse net s with ⟨_, e⟩ | ⟨w, hne, hw, e⟩ | ⟨e1, _, _, e⟩ <;>
      (rw [e]; exact ⟨hI.notYet, hI.done⟩)
  · subst e; exact ⟨hI.notYet, hI.done⟩
  · subst e; exact ⟨hI.notYet, hI.done⟩
  · subst e; exact ⟨hI.notYet, hI.done⟩
  · subst e; exact ⟨hI.notYet, hI.done⟩
  · subst e; exact ⟨hI.notYet, hI.done⟩

theorem dataFetched_step (parse : Parser) (s : State) (a : Action) (s1 : State)
    (hI : s.dataFetched = true) (hs : step parse s a = some s1) : s1.dataFetched = true := by
  obtain ⟨_, hc⟩ := step_cases parse s s1 a hs
  rcases hc with ⟨net, _, ht⟩ | ⟨t, _, _, _, e⟩ | ⟨net, _, _, e⟩ | ⟨_, _, hf, e⟩ |
    ⟨p, _, _, _, e⟩ | ⟨_, _, e⟩ | ⟨_, _, e⟩ | ⟨_, _, _, e⟩
  · rcases threadStep_cases parse net s s1 ht with
      ⟨_, _, e⟩ | ⟨_, _, e⟩ | ⟨_, _, _, _, e⟩ | ⟨_, _, _, _, e⟩ | ⟨_, e⟩ | ⟨_, _, _, _, e⟩ |
      ⟨_, _, _, _, e⟩ | ⟨_, _, _, e⟩ | ⟨_, _, e⟩ <;> subst e <;> simp [hI]
  · subst e; exact hI
  · subst e
    rcases searchButton_cases parse net s with ⟨_, e⟩ | ⟨w, hne, hw, e⟩ | ⟨e1, _, _, e⟩ <;>
      (rw [e]; exact hI)
  · subst e; exact hI
  · subst e; exact hI
  · subst e; exact hI
  · subst e; exact hI
  · subst e; exact hI

/-- C6: in every reachable state, the ready flag is false as long as the
background thread has completed fewer fetches than there are tracked cities;
when the flag is still false after that many fetches the thread stands on
line 72, and its step there sets the flag; and from a state where the flag is
true every run, whatever its steps and the outcomes of its fetches, ends in a
state where it is true. -/
theorem ready_flag_monotone (parse : Parser) (s : State) (h : Reachable parse s) :
    (s.fetchesDone < cities.length → s.dataFetched = false) ∧
    (s.dataFetched = false →
      s.fetchesDone ≤ cities.length ∧
      (s.fetchesDone = cities.length → s.threadPc = Pc.setFetched)) ∧
    (s.threadPc = Pc.setFetched → s.terminated = false →
      ∀ net, ∃ s1, step parse s (Action.background net) = some s1 ∧ s1.dataFetched = true) ∧
    (s.dataFetched = true →
      ∀ actions s1, run parse s actions = some s1 → s1.dataFetched = true) := by
  have hI : ReadyConsistent s :=
    reachable_invariant parse ReadyConsistent readyConsistent_init
      (fun s a s1 hI hs => readyConsistent_step parse s a s1 hI hs) s h
  refine ⟨?_, ?_, ?_, ?_⟩
  · intro hlt
    rcases Bool.eq_false_or_eq_true s.dataFetched with hd | hd
    · have := hI.done hd
      omega
    · exact hd
  · intro hd
    rcases hI.notYet hd with ⟨_, h0⟩ | ⟨k, _, hk, hlt⟩ | ⟨hpc, hn⟩ | ⟨_, h0⟩
    · exact ⟨by omega, fun h3 => by simp [cities, h0] at h3⟩
    · exact ⟨by omega, fun h3 => by omega⟩
    · exact ⟨by omega, fun _ => hpc⟩
    · exact ⟨by omega, fun h3 => by simp [cities, h0] at h3⟩
  · intro hpc ht net
    exact ⟨{ s with
        dataFetched := true, threadPc := Pc.sleepCheck 0, threadSteps := s.threadSteps + 1 },
      by simp [step, ht, threadStep, hpc], rfl⟩
  · intro hd actions s1 hr
    exact run_invariant parse (fun s => s.dataFetched = true)
      (fun s a s1 hI hs => dataFetched_step parse s a s1 hI hs) actions s s1 hd hr

set_option maxRecDepth 1000000 in
/-- Witness of C6: the state after the first pass with every fetch failing in
transport, on line 72: three fetches done, flag still false; the next step of
the thread sets it, and the 300 sleeps and the whole second pass of failing
fetches that follow leave it set. -/
theorem ready_flag_monotone_witness :
    ∃ s, run sampleParse init (List.replicate 4 (Action.background netDown)) = some s ∧
      s.threadPc = Pc.setFetched ∧ s.fetchesDone = 3 ∧ s.dataFetched = false ∧
      (∃ s1, step sampleParse s (Action.background netDown) = some s1 ∧
        s1.dataFetched = true) ∧
      (run sampleParse s (List.replicate 606 (Action.background netDown))).map
        (fun s2 => (s2.dataFetched, s2.fetchesDone, s2.threadPc, s2.sleepsBegun)) =
        some (true, 6, Pc.setFetched, 300) :=
  ⟨(run sampleParse init (List.replicate 4 (Action.background netDown))).getD init,
    by rfl, by rfl, by rfl, by rfl,
    (ready_flag_monotone sampleParse _
      ⟨List.replicate 4 (Action.background netDown), by rfl⟩).2.2.1 (by rfl) (by rfl) netDown,
    by decide⟩

/-! ### Shutdown of the background thread -/

theorem remaining_le (s : State) : remaining s ≤ cities.length + 3 := by
  unfold remaining
  split
  · omega
  · cases s.threadPc <;> simp [remainingAt, cities]
    omega

theorem pending_le_one (s : State) : passPending s + sleepPending s ≤ 1 := by
  unfold passPending sleepPending
  split
  · omega
  · cases s.threadPc with
    | fetch k => cases k <;> simp [passPendingAt, sleepPendingAt]
    | _ => simp [passPendingAt, sleepPendingAt]

theorem shutdownBound_of (P S T p0 : Nat) (s s1 : State) (hI : ShutdownBound P S T p0 s)
    (hflag : s1.keepRunning = false)
    (hp : s1.passesBegun + passPending s1 ≤ s.passesBegun + passPending s)
    (hs : s1.sleepsBegun + sleepPending s1 ≤ s.sleepsBegun + sleepPending s)
    (ht : s1.threadSteps + remaining s1 ≤ s.threadSteps + remaining s)
    (hm : s.passesBegun ≤ s1.passesBegun) : ShutdownBound P S T p0 s1 :=
  ⟨hflag, le_trans hp hI.passes, le_trans hs hI.sleeps, le_trans ht hI.steps,
    le_trans hI.passesMono hm⟩

theorem shutdownBound_same (P S T p0 : Nat) (s s1 : State) (hI : ShutdownBound P S T p0 s)
    (hflag : s1.keepRunning = false) (h1 : s1.passesBegun = s.passesBegun)
    (h2 : s1.sleepsBegun = s.sleepsBegun) (h3 : s1.threadSteps = s.threadSteps)
    (h4 : s1.threadPc = s.threadPc) (h5 : s1.terminated = s.terminated) :
    ShutdownBound P S T p0 s1 := by
  apply shutdownBound_of P S T p0 s s1 hI hflag
  · simp [passPending, h1, h4, h5]
  · simp [sleepPending, h2, h4, h5]
  · simp [remaining, h3, h4, h5]
  · simp [h1]

theorem shutdownBound_terminated (P S T p0 : Nat) (s s1 : State)
    (hI : ShutdownBound P S T p0 s)
    (hflag : s1.keepRunning = false) (h1 : s1.passesBegun = s.passesBegun)
    (h2 : s1.sleepsBegun = s.sleepsBegun) (h3 : s1.threadSteps = s.threadSteps)
    (h5 : s1.terminated = true) :
    ShutdownBound P S T p0 s1 := by
  apply shutdownBound_of P S T p0 s s1 hI hflag
  · simp [passPending, h1, h5]
  · simp [sleepPending, h2, h5]
  · simp [remaining, h3, h5]
  · simp [h1]

theorem shutdownBound_thread (parse : Parser) (net : Net) (P S T p0 : Nat) (s s1 : State)
    (hI : ShutdownBound P S T p0 s) (hterm : s.terminated = false)
    (ht : threadStep parse net s = some s1) : ShutdownBound P S T p0 s1 := by
  have hflag := hI.flag
  rcases threadStep_cases parse net s s1 ht with
    ⟨hpc, hk, e⟩ | ⟨hpc, _, e⟩ | ⟨k, store, hpc, hf, e⟩ | ⟨k, er, hpc, hf, e⟩ | ⟨hpc, e⟩ |
    ⟨i, hpc, _, _, e⟩ | ⟨i, hpc, _, hk, e⟩ | ⟨i, hpc, _, e⟩ | ⟨i, hpc, e⟩
  · rw [hflag] at hk; cases hk
  · subst e
    refine shutdownBound_of P S T p0 s _ hI ?_ ?_ ?_ ?_ ?_ <;>
      simp [passPending, sleepPending, remaining, passPendingAt, sleepPendingAt, remainingAt,
        hterm, hpc, hflag]
  · subst e
    cases k with
    | zero =>
      refine shutdownBound_of P S T p0 s _ hI ?_ ?_ ?_ ?_ ?_ <;>
        simp [passPending, sleepPending, remaining, passPendingAt, sleepPendingAt,
          remainingAt, hterm, hpc, cities, hflag]
    | succ n =>
      by_cases hlt : n + 1 + 1 < cities.length
      · refine shutdownBound_of P S T p0 s _ hI ?_ ?_ ?_ ?_ ?_
        all_goals
          simp [passPending, sleepPending, remaining, passPendingAt, sleepPendingAt,
            remainingAt, hterm, hpc, hlt, hflag]
        all_goals omega
      · refine shutdownBound_of P S T p0 s _ hI ?_ ?_ ?_ ?_ ?_
        all_goals
          simp [passPending, sleepPending, remaining, passPendingAt, sleepPendingAt,
            remainingAt, hterm, hpc, hlt, hflag]
        all_goals omega
  · subst e
    cases k with
    | zero =>
      refine shutdownBound_of P S T p0 s _ hI ?_ ?_ ?_ ?_ ?_ <;>
        simp [passPending, sleepPending, remaining, passPendingAt, sleepPendingAt,
          remainingAt, hterm, hpc, cities, hflag]
    | succ n =>
      refine shutdownBound_of P S T p0 s _ hI ?_ ?_ ?_ ?_ ?_
      all_goals
        simp [passPending, sleepPending, remaining, passPendingAt, sleepPendingAt,
          remainingAt, hterm, hpc, hflag]
      all_goals omega
  · subst e
    refine shutdownBound_of P S T p0 s _ hI ?_ ?_ ?_ ?_ ?_ <;>
      simp [passPending, sleepPending, remaining, passPendingAt, sleepPendingAt, remainingAt,
        hterm, hpc, hflag]
  · subst e
    refine shutdownBound_of P S T p0 s _ hI ?_ ?_ ?_ ?_ ?_ <;>
      simp [passPending, sleepPending, remaining, passPendingAt, sleepPendingAt, remainingAt,
        hterm, hpc, hflag]
  · rw [hflag] at hk; cases hk
  · subst e
    refine shutdownBound_of P S T p0 s _ hI ?_ ?_ ?_ ?_ ?_ <;>
      simp [passPending, sleepPending, remaining, passPendingAt, sleepPendingAt, remainingAt,
        hterm, hpc, hflag]
  · subst e
    refine shutdownBound_of P S T p0 s _ hI ?_ ?_ ?_ ?_ ?_ <;>
      simp [passPending, sleepPending, remaining, passPendingAt, sleepPendingAt, remainingAt,
        hterm, hpc, hflag]

theorem shutdownBound_step (parse : Parser) (P S T p0 : Nat) (s : State) (a : Action)
    (s1 : State) (hI : ShutdownBound P S T p0 s) (hs : step parse s a = some s1) :
    ShutdownBound P S T p0 s1 := by
  obtain ⟨hterm, hc⟩ := step_cases parse s s1 a hs
  have hflag := hI.flag
  rcases hc with ⟨net, _, ht⟩ | ⟨t, _, _, _, e⟩ | ⟨net, _, _, e⟩ | ⟨_, _, hf, e⟩ |
    ⟨p, _, _, _, e⟩ | ⟨_, _, e⟩ | ⟨_, _, e⟩ | ⟨_, _, _, e⟩
  · exact shutdownBound_thread parse net P S T p0 s s1 hI hterm ht
  · subst e; exact shutdownBound_same P S T p0 s _ hI hflag rfl rfl rfl rfl rfl
  · subst e
    rcases searchButton_cases parse net s with ⟨_, e⟩ | ⟨w, hne, hw, e⟩ | ⟨e1, _, _, e⟩
    · rw [e]; exact hI
    · rw [e]; exact shutdownBound_same P S T p0 s _ hI hflag rfl rfl rfl rfl rfl
    · rw [e]; exact shutdownBound_terminated P S T p0 s _ hI hflag rfl rfl rfl rfl
  · subst e; exact shutdownBound_same P S T p0 s _ hI hflag rfl rfl rfl rfl rfl
  · subst e; exact shutdownBound_same P S T p0 s _ hI hflag rfl rfl rfl rfl rfl
  · subst e; exact shutdownBound_same P S T p0 s _ hI hflag rfl rfl rfl rfl rfl
  · subst e; exact shutdownBound_same P S T p0 s _ hI rfl rfl rfl rfl rfl rfl
  · subst e; exact shutdownBound_same P S T p0 s _ hI hflag rfl rfl rfl rfl rfl

theorem stopped_step (parse : Parser) (s : State) (a : Action) (s1 : State)
    (hI : s.threadPc = Pc.stopped) (hs : step parse s a = some s1) :
    s1.threadPc = Pc.stopped := by
  obtain ⟨_, hc⟩ := step_cases parse s s1 a hs
  rcases hc with ⟨net, _, ht⟩ | ⟨t, _, _, _, e⟩ | ⟨net, _, _, e⟩ | ⟨_, _, hf, e⟩ |
    ⟨p, _, _, _, e⟩ | ⟨_, _, e⟩ | ⟨_, _, e⟩ | ⟨_, _, _, e⟩
  · simp [threadStep, hI] at ht
  · subst e; exact hI
  · subst e
    rcases searchButton_cases parse net s with ⟨_, e⟩ | ⟨w, hne, hw, e⟩ | ⟨e1, _, _, e⟩ <;>
      (rw [e]; exact hI)
  · subst e; exact hI
  · subst e; exact hI
  · subst e; exact hI
  · subst e; exact hI
  · subst e; exact hI

/-- C9, the claim as stated fails: the thread tests the run flag on line 68, the
window is closed and line 193 clears the flag, and the thread then begins a
pass: it fetches the three tracked cities with the flag false. -/
theorem pass_begins_after_flag_cleared :
    ∃ s s1, run sampleParse init [Action.background netOk, Action.close] = some s ∧
      s.keepRunning = false ∧ s.passesBegun = 0 ∧ s.requests = [] ∧
      run sampleParse s
        [Action.background netOk, Action.background netOk, Action.background netOk] =
        some s1 ∧
      s1.passesBegun = 1 ∧
      s1.requests = [requestUrl "Jerusalem" apiKey, requestUrl "London" apiKey,
        requestUrl "New York" apiKey] :=
  ⟨(run sampleParse init [Action.background netOk, Action.close]).getD init,
    (run sampleParse init
      [Action.background netOk, Action.close, Action.background netOk,
       Action.background netOk, Action.background netOk]).getD init,
    by rfl, by rfl, by rfl, by rfl, by rfl, by rfl, by rfl⟩

/-- C9 as amended: from any state in which the run flag is false, along every
run the flag stays false; the thread begins no pass unless it stood between
the test of line 68 and the first fetch, and then one; it begins at most one
sleep; it begins at most one of the two; it takes at most as many further
steps as its control point leaves, never more than the number of tracked
cities plus three, after which it has returned unless an uncaught exception
has ended the process; while it has not returned and the process lives its
next step can be taken; and once returned it takes no step. -/
theorem shutdown_bounds (parse : Parser) (s s1 : State) (actions : List Action)
    (hflag : s.keepRunning = false) (hrun : run parse s actions = some s1) :
    s1.keepRunning = false ∧
    (s.threadPc ≠ Pc.fetch 0 → s1.passesBegun = s.passesBegun) ∧
    s1.passesBegun ≤ s.passesBegun + 1 ∧
    s1.sleepsBegun ≤ s.sleepsBegun + 1 ∧
    s1.passesBegun + s1.sleepsBegun ≤ s.passesBegun + s.sleepsBegun + 1 ∧
    s1.threadSteps ≤ s.threadSteps + remaining s ∧
    s1.threadSteps ≤ s.threadSteps + (cities.length + 3) ∧
    (s.threadSteps + remaining s ≤ s1.threadSteps →
      s1.terminated = true ∨ s1.threadPc = Pc.stopped) ∧
    (s1.terminated = false → s1.threadPc ≠ Pc.stopped →
      ∀ net, ∃ s2, step parse s1 (Action.background net) = some s2 ∧
        s2.threadSteps = s1.threadSteps + 1) ∧
    (s1.threadPc = Pc.stopped → ∀ net, step parse s1 (Action.background net) = none) ∧
    (s.threadPc = Pc.stopped → s1.threadPc = Pc.stopped) := by
  have h0 : ShutdownBound (s.passesBegun + passPending s) (s.sleepsBegun + sleepPending s)
      (s.threadSteps + remaining s) s.passesBegun s :=
    ⟨hflag, le_refl _, le_refl _, le_refl _, le_refl _⟩
  have hI := run_invariant parse _
    (fun s a s1 hI hs => shutdownBound_step parse _ _ _ _ s a s1 hI hs) actions s s1 h0 hrun
  have hp := hI.passes
  have hsl := hI.sleeps
  have hst := hI.steps
  have hpm := hI.passesMono
  have hone := pending_le_one s
  have hrem := remaining_le s
  refine ⟨hI.flag, ?_, by omega, by omega, by omega, by omega, by omega, ?_, ?_, ?_, ?_⟩
  · intro hne
    have : passPending s = 0 := by
      unfold passPending
      split
      · rfl
      · cases hpc : s.threadPc with
        | fetch k =>
          cases k with
          | zero => exact absurd hpc hne
          | succ n => simp [passPendingAt]
        | _ => simp [passPendingAt]
    omega
  · intro hle
    have hz : remaining s1 = 0 := by omega
    unfold remaining at hz
    rcases Bool.eq_false_or_eq_true s1.terminated with ht | ht
    · exact Or.inl ht
    · right
      simp only [ht] at hz
      cases hpc : s1.threadPc <;> simp [hpc, remainingAt] at hz
      rfl
  · intro ht hpc net
    cases hs : threadStep parse net s1 with
    | none =>
      exfalso
      unfold threadStep at hs
      cases hp1 : s1.threadPc with
      | stopped => exact hpc hp1
      | loopHead => simp only [hp1] at hs; split at hs <;> cases hs
      | fetch k => simp only [hp1] at hs; split at hs <;> cases hs
      | setFetched => simp [hp1] at hs
      | sleepCheck i =>
        simp only [hp1] at hs
        split at hs
        · split at hs <;> cases hs
        · cases hs
      | sleeping i => simp [hp1] at hs
    | some s2 =>
      refine ⟨s2, by simp [step, ht, hs], ?_⟩
      rcases threadStep_cases parse net s1 s2 hs with
        ⟨_, _, e⟩ | ⟨_, _, e⟩ | ⟨_, _, _, _, e⟩ | ⟨_, _, _, _, e⟩ | ⟨_, e⟩ | ⟨_, _, _, _, e⟩ |
        ⟨_, _, _, _, e⟩ | ⟨_, _, _, e⟩ | ⟨_, _, e⟩ <;> subst e <;> rfl
  · intro hpc net
    unfold step
    split
    · rfl
    · simp [threadStep, hpc]
  · intro hpc
    exact run_invariant parse (fun s => s.threadPc = Pc.stopped)
      (fun s a s1 hI hs => stopped_step parse s a s1 hI hs) actions s s1 hpc hrun

/-- Witness of C9 as amended: the flag is cleared while the thread stands before
its first fetch; it fetches the three cities (one pass, no sleep), sets the
ready flag, fails the test of line 74, fails the test of line 68 and returns,
six steps in all, and the join then completes. -/
theorem shutdown_bounds_witness :
    ∃ s s1, run sampleParse init [Action.background netOk, Action.close] = some s ∧
      s.keepRunning = false ∧
      run sampleParse s (List.replicate 6 (Action.background netOk) ++ [Action.join]) =
        some s1 ∧
      s1.threadPc = Pc.stopped ∧ s1.mainPc = MainPc.exited ∧
      s1.passesBegun = s.passesBegun + 1 ∧ s1.sleepsBegun = s.sleepsBegun ∧
      s1.threadSteps = s.threadSteps + 6 ∧
      s1.passesBegun + s1.sleepsBegun ≤ s.passesBegun + s.sleepsBegun + 1 :=
  ⟨(run sampleParse init [Action.background netOk, Action.close]).getD init,
    (run sampleParse init
      ([Action.background netOk, Action.close] ++
        List.replicate 6 (Action.background netOk) ++ [Action.join])).getD init,
    by rfl, by rfl, by rfl, by rfl, by rfl, by rfl, by rfl, by rfl,
    (shutdown_bounds sampleParse
      ((run sampleParse init [Action.background netOk, Action.close]).getD init)
      _ (List.replicate 6 (Action.background netOk) ++ [Action.join])
      (by rfl) (by rfl)).2.2.2.2.1⟩

/-! ### One background pass -/

/-- C5: starting from the empty store, whatever failure or success each of the
three tracked-city fetches meets, one full pass returns normally; the store
then has exactly the keys Jerusalem, London, New York (3 entries), each
entry's city equals its key, and the entry of each city is the name-only
record when its fetch failed and the record populated from the body when it
succeeded.  The first four steps of the background thread produce this store
and leave the thread on line 72 with the ready flag still false. -/
theorem background_pass_store (parse : Parser) (nets : Nat → Net)
    (hout : ∀ k, k < cities.length →
      FetchFails (nets k (requestUrl (cities.getD k "") apiKey)) ∨
      ∃ t hu v, FetchSucceeds parse (nets k (requestUrl (cities.getD k "") apiKey)) t hu v) :
    ∃ store, backgroundPass parse nets [] = Except.ok store ∧
      Store.keys store = cities ∧ store.length = 3 ∧
      (∀ kv, kv ∈ store → kv.2.city = kv.1) ∧
      (∀ k, k < cities.length → ∃ r, Store.find store (cities.getD k "") = some r ∧
        ((FetchFails (nets k (requestUrl (cities.getD k "") apiKey)) ∧
            r = nameOnly (cities.getD k "")) ∨
         ∃ t hu v,
            FetchSucceeds parse (nets k (requestUrl (cities.getD k "") apiKey)) t hu v ∧
            r = populated (cities.getD k "") t hu v)) ∧
      ∃ s1, run parse init
          [Action.background (nets 0), Action.background (nets 0),
           Action.background (nets 1), Action.background (nets 2)] = some s1 ∧
        s1.weatherDataMap = store ∧ s1.threadPc = Pc.setFetched ∧
        s1.dataFetched = false := by
  have h0 : FetchFails (nets 0 (requestUrl "Jerusalem" apiKey)) ∨
      ∃ t hu v, FetchSucceeds parse (nets 0 (requestUrl "Jerusalem" apiKey)) t hu v :=
    hout 0 (by decide)
  have h1 : FetchFails (nets 1 (requestUrl "London" apiKey)) ∨
      ∃ t hu v, FetchSucceeds parse (nets 1 (requestUrl "London" apiKey)) t hu v :=
    hout 1 (by decide)
  have h2 : FetchFails (nets 2 (requestUrl "New York" apiKey)) ∨
      ∃ t hu v, FetchSucceeds parse (nets 2 (requestUrl "New York" apiKey)) t hu v :=
    hout 2 (by decide)
  obtain ⟨w0, e0, c0⟩ := fetchWeatherData_outcome (nets 0) parse "Jerusalem" h0
  obtain ⟨w1, e1, c1⟩ := fetchWeatherData_outcome (nets 1) parse "London" h1
  obtain ⟨w2, e2, c2⟩ := fetchWeatherData_outcome (nets 2) parse "New York" h2
  have hc0 := fetchWeatherData_city _ _ _ _ _ e0
  have hc1 := fetchWeatherData_city _ _ _ _ _ e1
  have hc2 := fetchWeatherData_city _ _ _ _ _ e2
  refine ⟨[("Jerusalem", w0), ("London", w1), ("New York", w2)], ?_, ?_, rfl, ?_, ?_, ?_⟩
  · simp [backgroundPass, passFrom, cities, fetchAndStore, e0, e1, e2, Except.map, Except.bind,
      Store.assign]
  · rfl
  · intro kv hkv
    simp only [List.mem_cons, List.mem_singleton, List.not_mem_nil, or_false] at hkv
    rcases hkv with rfl | rfl | rfl
    · exact hc0
    · exact hc1
    · exact hc2
  · intro k hk
    have hk3 : k < 3 := hk
    interval_cases k
    · exact ⟨w0, by simp [Store.find, cities], c0⟩
    · exact ⟨w1, by simp [Store.find, cities], c1⟩
    · exact ⟨w2, by simp [Store.find, cities], c2⟩
  · simp [run, step, init, threadStep, cities, fetchAndStore, e0, e1, e2, Except.map,
      Store.assign]

/-- Witness of C5: the scenario of the specification.  The fetch of London
fails in transport and the other two succeed; the store has 3 entries and the
London entry is the name-only record for London. -/
theorem background_pass_store_witness :
    backgroundPass sampleParse (fun k => if k = 1 then netDown else netOk) [] =
      Except.ok
        [("Jerusalem", populated "Jerusalem" (43 / 2) 40 3),
         ("London", nameOnly "London"),
         ("New York", populated "New York" (43 / 2) 40 3)] ∧
    ∃ store, backgroundPass sampleParse (fun k => if k = 1 then netDown else netOk) [] =
        Except.ok store ∧
      Store.keys store = cities ∧ store.length = 3 ∧
      (∀ kv, kv ∈ store → kv.2.city = kv.1) := by
  refine ⟨by rfl, ?_⟩
  obtain ⟨store, h1, h2, h3, h4, _⟩ :=
    background_pass_store sampleParse (fun k => if k = 1 then netDown else netOk)
      (by
        intro k hk
        have hk3 : k < 3 := hk
        interval_cases k
        · exact Or.inr ⟨43 / 2, 40, 3, _, sampleDoc, rfl, rfl, rfl, by rfl⟩
        · exact Or.inl (Or.inl rfl)
        · exact Or.inr ⟨43 / 2, 40, 3, _, sampleDoc, rfl, rfl, rfl, by rfl⟩)
  exact ⟨store, h1, h2, h3, h4⟩

/-! ### The Search button -/

/-- C4: a press of Search while the input field is empty changes nothing at all,
so no request is issued and the last-searched record and the found flag stay
as they were; such a press can always happen in the render loop; and every
step other than a press of Search with a non-empty field leaves the
last-searched record and the found flag unchanged. -/
theorem search_empty_field_frame (parse : Parser) (s s1 : State) (a : Action)
    (h : step parse s a = some s1) :
    (∀ net, a = Action.pressSearch net → s.citySearch = "" →
      s1 = s ∧ s1.requests = s.requests) ∧
    ((∀ net, a = Action.pressSearch net → s.citySearch = "") →
      s1.searchedCity = s.searchedCity ∧ s1.cityFound = s.cityFound) ∧
    (∀ net, s.mainPc = MainPc.frames → s.citySearch = "" →
      step parse s (Action.pressSearch net) = some s) := by
  have ht := step_not_terminated parse s s1 a h
  refine ⟨?_, ?_, ?_⟩
  · intro net ha he
    subst ha
    simp [step, ht, searchButton, he] at h
    obtain ⟨_, h⟩ := h
    subst h
    exact ⟨rfl, rfl⟩
  · intro hne
    cases a with
    | background net =>
      simp only [step, ht] at h
      have := threadStep_frame parse net s s1 h
      exact ⟨this.1, this.2.1⟩
    | typeText t =>
      simp [step, ht] at h
      obtain ⟨_, h⟩ := h
      subst h
      exact ⟨rfl, rfl⟩
    | pressSearch net =>
      have he := hne net rfl
      simp [step, ht, searchButton, he] at h
      obtain ⟨_, h⟩ := h
      subst h
      exact ⟨rfl, rfl⟩
    | pressAdd =>
      simp [step, ht, addButton] at h
      obtain ⟨_, h⟩ := h
      subst h
      exact ⟨rfl, rfl⟩
    | pressRemove p =>
      simp [step, ht, removeButton] at h
      obtain ⟨_, h⟩ := h
      subst h
      exact ⟨rfl, rfl⟩
    | render =>
      simp [step, ht, renderPanels] at h
      obtain ⟨_, h⟩ := h
      subst h
      exact ⟨rfl, rfl⟩
    | close =>
      simp [step, ht] at h
      obtain ⟨_, h⟩ := h
      subst h
      exact ⟨rfl, rfl⟩
    | join =>
      simp [step, ht] at h
      obtain ⟨_, h⟩ := h
      subst h
      exact ⟨rfl, rfl⟩
  · intro net hm he
    simp [step, ht, searchButton, he, hm]

/-- Witness of C4: after a successful search for Paris the field is emptied and
Search is pressed again on a working network; the state after the press is
the state before it, with Paris as the last-searched record and a single
request in the history. -/
theorem search_empty_field_frame_witness :
    ∃ s s1, run sampleParse init
        [Action.typeText "Paris", Action.pressSearch netOk, Action.typeText ""] = some s ∧
      step sampleParse s (Action.pressSearch netOk) = some s1 ∧
      s.citySearch = "" ∧ s.cityFound = true ∧ s.searchedCity.city = "Paris" ∧
      s.requests = [requestUrl "Paris" apiKey] ∧
      (s1 = s ∧ s1.requests = s.requests) :=
  ⟨(run sampleParse init
      [Action.typeText "Paris", Action.pressSearch netOk, Action.typeText ""]).getD init,
    (run sampleParse init
      [Action.typeText "Paris", Action.pressSearch netOk, Action.typeText "",
       Action.pressSearch netOk]).getD init,
    by rfl, by rfl, by rfl, by rfl, by rfl, by rfl,
    (search_empty_field_frame sampleParse _ _ (Action.pressSearch netOk) (by rfl)).1
      netOk rfl (by rfl)⟩

end Weather
